import Mathlib

/-!
# plotfx: the domain subsystem (`common/domain.cc`)

A shallow embedding of the axis-domain code of plotfx and the properties its
specification states about it. The definitions of the box-model layout
(`elements/chart/layout.cc`) follow those of the domain; the theorems about
the domain and then those about the layout come after all definitions.

Numbers.  The source computes in `double`.  The embedding computes in exact
rational arithmetic: data values, domain bounds and the padding are rationals
(`ℚ`).  The only operation of the source that can leave the finite numbers on
finite operands is the division in `domain_translate_*`; its result, and what
is computed from it, has the type `Double`, which is either a finite rational
or `nonfinite` (the IEEE values NaN, +Inf and -Inf taken together).  Rounding
and overflow are not modelled there.  Where the range of `double` decides a
property (the outputs of a translation lie in [0, 1], the fitted bounds are
ordered), the same functions are read a second time in `plotfx.binary64`,
with infinities, NaN and overflow.

Collaborators that are not part of `domain.cc` (`value_to_float`,
`series_to_float`, `plist::is_value`) are parameters of the functions
that call them.
-/

namespace plotfx

/-! ## Numbers -/

/-- The value of a `double` expression: a finite number, or one of the
non-finite IEEE values (NaN, +Inf, -Inf), which are not told apart. -/
inductive Double where
  | finite (q : ℚ)
  | nonfinite
  deriving DecidableEq

namespace Double

/-- The sum `a + b`: a non-finite operand gives a non-finite result. -/
def add : Double → Double → Double
  | finite a, finite b => finite (a + b)
  | _, _ => nonfinite

/-- The difference `a - b`: a non-finite operand gives a non-finite result. -/
def sub : Double → Double → Double
  | finite a, finite b => finite (a - b)
  | _, _ => nonfinite

/-- The product `a * b`: a non-finite operand gives a non-finite result
(`0 * Inf` is NaN). -/
def mul : Double → Double → Double
  | finite a, finite b => finite (a * b)
  | _, _ => nonfinite

/-- The quotient `a / b` of two finite numbers: dividing by zero gives NaN
(`0 / 0`) or an infinity, a non-finite value. -/
def div (a b : ℚ) : Double :=
  if b = 0 then nonfinite else finite (a / b)

end Double

/-! ## Data model -/

/-- A raw value of a series (`using Value = std::string`). -/
abbrev Value := String

/-- A series: an ordered sequence of raw values. -/
abbrev Series := List Value

/-- The two kinds of domain, `enum class DomainKind`. -/
inductive DomainKind where
  | LINEAR
  | CATEGORICAL
  deriving DecidableEq

/-- The configuration of one axis, `struct DomainConfig`; the defaults are
those of the constructor `DomainConfig::DomainConfig()`. -/
structure DomainConfig where
  kind : DomainKind := DomainKind.LINEAR
  min : Option ℚ := none
  max : Option ℚ := none
  inverted : Bool := false
  padding : ℚ := 0
  categories : List String := []
  deriving DecidableEq

/-! ## `std::unordered_map<std::string, double>` -/

/-- The lookup table of `domain_translate_categorical`, as an association
list with at most one entry per key. -/
abbrev Cache := List (String × ℚ)

namespace Cache

/-- The method `emplace(k, v)`: inserts the entry unless the key is already
present, in which case the map is left as it is. -/
def emplace (c : Cache) (k : String) (v : ℚ) : Cache :=
  match c.lookup k with
  | some _ => c
  | none => c ++ [(k, v)]

/-- The method `operator[](k)`: the value stored under `k`; a key that is
absent is first inserted with the value-initialised `double`, `0.0`. -/
def index (c : Cache) (k : String) : ℚ × Cache :=
  match c.lookup k with
  | some v => (v, c)
  | none => (0, c ++ [(k, 0)])

end Cache

/-! ## Translation -/

/-- The function `domain_translate_linear` of `domain.cc`. -/
def domain_translate_linear (value_to_float : Value → ℚ)
    (domain : DomainConfig) (series : Series) : List Double :=
  let min := domain.min.getD 0
  let max := domain.max.getD 0
  series.foldl
    (fun mapped v =>
      let vf := value_to_float v
      let vt := Double.div (vf - min) (max - min)
      let vt := if domain.inverted then Double.sub (Double.finite 1) vt else vt
      mapped ++ [vt])
    []

/-- The first loop of `domain_translate_categorical`, from the index `i` on:
each category is emplaced with its index as a `double`. -/
def fill_cache : List String → Nat → Cache → Cache
  | [], _, cache => cache
  | c :: cs, i, cache => fill_cache cs (i + 1) (cache.emplace c (i : ℚ))

/-- The function `domain_translate_categorical` of `domain.cc`. -/
def domain_translate_categorical
    (domain : DomainConfig) (series : Series) : List Double :=
  let cache := fill_cache domain.categories 0 []
  let category_count : ℚ := (domain.categories.length : ℚ)
  (series.foldl
    (fun (st : Cache × List Double) v =>
      let r := st.1.index v
      let vt := Double.add (Double.div r.1 category_count)
        (Double.div (1 / 2) category_count)
      let vt := if domain.inverted then Double.sub (Double.finite 1) vt else vt
      (r.2, st.2 ++ [vt]))
    (cache, [])).2

/-- The function `domain_translate` of `domain.cc`. -/
def domain_translate (value_to_float : Value → ℚ)
    (domain : DomainConfig) (series : Series) : List Double :=
  match domain.kind with
  | DomainKind.LINEAR => domain_translate_linear value_to_float domain series
  | DomainKind.CATEGORICAL => domain_translate_categorical domain series

/-- The function `domain_untranslate` of `domain.cc`; the `switch` has a
case for `LINEAR` only, so any other kind leaves `v = 0.0`. -/
def domain_untranslate (domain : DomainConfig) (vt : Double) : Double :=
  let min := domain.min.getD 0
  let max := domain.max.getD 0
  let vt := if domain.inverted then Double.sub (Double.finite 1) vt else vt
  match domain.kind with
  | DomainKind.LINEAR =>
    Double.add (Double.finite min) (Double.mul (Double.finite (max - min)) vt)
  | _ => Double.finite 0

/-! ## Fitting -/

/-- The body of the loop of `domain_fit_linear` for the value `d`. -/
def domain_fit_linear_step (fit_min fit_max : Bool)
    (domain : DomainConfig) (d : ℚ) : DomainConfig :=
  let domain :=
    if fit_min && (match domain.min with
        | none => true
        | some m => decide (m > d)) then
      { domain with min := some d }
    else domain
  let domain :=
    if fit_max && (match domain.max with
        | none => true
        | some m => decide (m < d)) then
      { domain with max := some d }
    else domain
  domain

/-- The function `domain_fit_linear` of `domain.cc`; `series_to_float` is the
coercion of the series to numbers. -/
def domain_fit_linear (series_to_float : Series → List ℚ)
    (data_raw : Series) (domain : DomainConfig) (snap_zero : Bool) : DomainConfig :=
  let data := series_to_float data_raw
  let fit_min := domain.min.isNone
  let fit_max := domain.max.isNone
  let domain := data.foldl (domain_fit_linear_step fit_min fit_max) domain
  let range := domain.max.getD 0 - domain.min.getD 0
  let domain :=
    if fit_max then
      { domain with max := some (domain.max.getD 0 + range * domain.padding) }
    else domain
  let domain :=
    if fit_min then
      if snap_zero && decide (domain.min.getD 0 > 0) then
        { domain with min := some 0 }
      else
        { domain with min := some (domain.min.getD 0 - range * domain.padding) }
    else domain
  domain

/-- The `std::set<std::string>` of `domain_fit_categorical`, as the list of
its elements. -/
abbrev StringSet := List String

namespace StringSet

/-- The method `insert(x)`: adds the element unless it is present. -/
def insert (s : StringSet) (x : String) : StringSet :=
  if x ∈ s then s else s ++ [x]

/-- The method `count(x)`: 1 when the element is present, else 0. -/
def count (s : StringSet) (x : String) : Nat :=
  if x ∈ s then 1 else 0

end StringSet

/-- The body of the second loop of `domain_fit_categorical` for the label
`d`: a label that the set holds is skipped, any other is appended to
`categories` and inserted into the set. -/
def domain_fit_categorical_step (st : StringSet × DomainConfig) (d : Value) :
    StringSet × DomainConfig :=
  if StringSet.count st.1 d > 0 then st
  else
    (StringSet.insert st.1 d, { st.2 with categories := st.2.categories ++ [d] })

/-- The function `domain_fit_categorical` of `domain.cc`. -/
def domain_fit_categorical (data : Series) (domain : DomainConfig) : DomainConfig :=
  let cache : StringSet :=
    domain.categories.foldl (fun cache d => StringSet.insert cache d) []
  (data.foldl domain_fit_categorical_step (cache, domain)).2

/-- The function `domain_fit` of `domain.cc`. -/
def domain_fit (series_to_float : Series → List ℚ)
    (data : Series) (domain : DomainConfig) (snap_zero : Bool) : DomainConfig :=
  match domain.kind with
  | DomainKind.LINEAR => domain_fit_linear series_to_float data domain snap_zero
  | DomainKind.CATEGORICAL => domain_fit_categorical data domain

/-! ## Configuration -/

/-- The return codes that `domain.cc` uses. -/
inductive ReturnCode where
  | OK
  | ERROR_INVALID_ARGUMENT
  deriving DecidableEq

/-- The function `confgure_domain_kind` of `domain.cc`, over any type of
properties; `is_value prop s` is `plist::is_value(prop, s)`.  The result is
the return code and the kind that `*kind` holds afterwards. -/
def confgure_domain_kind {Property : Type} (is_value : Property → String → Bool)
    (prop : Property) (kind : DomainKind) : ReturnCode × DomainKind :=
  if is_value prop "linear" then
    (ReturnCode.OK, DomainKind.LINEAR)
  else if is_value prop "categorical" then
    (ReturnCode.OK, DomainKind.CATEGORICAL)
  else
    (ReturnCode.ERROR_INVALID_ARGUMENT, kind)

/-! ## Concrete inputs -/

/-- A coercion of values to numbers for the examples: the decimal value of a
string of digits. -/
def digits_to_float (v : Value) : ℚ :=
  ((v.toList.foldl (fun n c => 10 * n + (c.toNat - '0'.toNat)) 0 : Nat) : ℚ)

/-- The elementwise coercion of a series for the examples. -/
def digits_series_to_float (s : Series) : List ℚ :=
  s.map digits_to_float

/-- A reading of `plist::is_value` for the examples: a property is a plain
string, and it is the value `s` when it equals `s`. -/
def string_is_value (prop : String) (s : String) : Bool :=
  prop == s

/-! ## The binary64 reading of the domain code

The same functions of `domain.cc`, read with the range of the `double` type:
a value is a finite number, an infinity or NaN, a result of `+`, `-`, `*` or
`/` whose magnitude reaches `2^1024 - 2^970` overflows to an infinity, and
NaN and the infinities propagate and compare as IEEE 754 says.  The rounding
of results that stay finite is not modelled, and the two zeros are one.  The
series values, the bounds and the padding may be any `double`.
-/

namespace binary64

/-- The least magnitude that rounds to an infinity: halfway between the
largest finite `double`, `2^1024 - 2^971`, and `2^1024`. -/
def overflow_threshold : ℚ :=
  2 ^ 1024 - 2 ^ 970

/-- A value of the type `double`: a finite number, `+Inf`, `-Inf` or NaN. -/
inductive F64 where
  | finite (q : ℚ)
  | pinf
  | ninf
  | nan
  deriving DecidableEq

namespace F64

/-- The `double` that a real result becomes: an infinity when it overflows. -/
def ofRat (q : ℚ) : F64 :=
  if overflow_threshold ≤ q then pinf
  else if q ≤ -overflow_threshold then ninf
  else finite q

/-- The negation `-a`. -/
def neg : F64 → F64
  | finite a => finite (-a)
  | pinf => ninf
  | ninf => pinf
  | nan => nan

/-- The sum `a + b`; `Inf + -Inf` is NaN. -/
def add : F64 → F64 → F64
  | finite a, finite b => ofRat (a + b)
  | nan, _ => nan
  | _, nan => nan
  | pinf, ninf => nan
  | ninf, pinf => nan
  | pinf, _ => pinf
  | _, pinf => pinf
  | ninf, _ => ninf
  | _, ninf => ninf

/-- The difference `a - b`. -/
def sub (a b : F64) : F64 :=
  add a (neg b)

/-- The product `a * b`; `Inf * 0` is NaN. -/
def mul : F64 → F64 → F64
  | finite a, finite b => ofRat (a * b)
  | nan, _ => nan
  | _, nan => nan
  | pinf, finite b => if 0 < b then pinf else if b < 0 then ninf else nan
  | ninf, finite b => if 0 < b then ninf else if b < 0 then pinf else nan
  | finite a, pinf => if 0 < a then pinf else if a < 0 then ninf else nan
  | finite a, ninf => if 0 < a then ninf else if a < 0 then pinf else nan
  | pinf, pinf => pinf
  | ninf, ninf => pinf
  | pinf, ninf => ninf
  | ninf, pinf => ninf

/-- The quotient `a / b`; `0 / 0` and `Inf / Inf` are NaN, a finite number
over an infinity is 0, and a zero divisor counts as `+0`. -/
def div : F64 → F64 → F64
  | finite a, finite b =>
    if b = 0 then (if a = 0 then nan else if 0 < a then pinf else ninf)
    else ofRat (a / b)
  | nan, _ => nan
  | _, nan => nan
  | finite _, pinf => finite 0
  | finite _, ninf => finite 0
  | pinf, finite b => if 0 ≤ b then pinf else ninf
  | ninf, finite b => if 0 ≤ b then ninf else pinf
  | pinf, pinf => nan
  | pinf, ninf => nan
  | ninf, pinf => nan
  | ninf, ninf => nan

/-- The comparison `a < b`; false when an operand is NaN. -/
def lt : F64 → F64 → Bool
  | finite a, finite b => decide (a < b)
  | ninf, finite _ => true
  | ninf, pinf => true
  | finite _, pinf => true
  | _, _ => false

end F64

/-- The `struct DomainConfig` with bounds and padding of the type `double`. -/
structure DomainConfig where
  kind : DomainKind := DomainKind.LINEAR
  min : Option F64 := none
  max : Option F64 := none
  inverted : Bool := false
  padding : F64 := F64.finite 0
  categories : List String := []
  deriving DecidableEq

/-- The function `domain_translate_linear` of `domain.cc`. -/
def domain_translate_linear (value_to_float : Value → F64)
    (domain : DomainConfig) (series : Series) : List F64 :=
  let min := domain.min.getD (F64.finite 0)
  let max := domain.max.getD (F64.finite 0)
  series.foldl
    (fun mapped v =>
      let vf := value_to_float v
      let vt := F64.div (F64.sub vf min) (F64.sub max min)
      let vt := if domain.inverted then F64.sub (F64.finite 1) vt else vt
      mapped ++ [vt])
    []

/-- The function `domain_translate_categorical` of `domain.cc`; the table
holds the indices, which are finite. -/
def domain_translate_categorical
    (domain : DomainConfig) (series : Series) : List F64 :=
  let cache := fill_cache domain.categories 0 []
  let category_count : F64 := F64.finite (domain.categories.length : ℚ)
  (series.foldl
    (fun (st : Cache × List F64) v =>
      let r := st.1.index v
      let vt := F64.add (F64.div (F64.finite r.1) category_count)
        (F64.div (F64.finite (1 / 2)) category_count)
      let vt := if domain.inverted then F64.sub (F64.finite 1) vt else vt
      (r.2, st.2 ++ [vt]))
    (cache, [])).2

/-- The function `domain_translate` of `domain.cc`. -/
def domain_translate (value_to_float : Value → F64)
    (domain : DomainConfig) (series : Series) : List F64 :=
  match domain.kind with
  | DomainKind.LINEAR => domain_translate_linear value_to_float domain series
  | DomainKind.CATEGORICAL => domain_translate_categorical domain series

/-- The body of the loop of `domain_fit_linear` for the value `d`. -/
def domain_fit_linear_step (fit_min fit_max : Bool)
    (domain : DomainConfig) (d : F64) : DomainConfig :=
  let domain :=
    if fit_min && (match domain.min with
        | none => true
        | some m => F64.lt d m) then
      { domain with min := some d }
    else domain
  let domain :=
    if fit_max && (match domain.max with
        | none => true
        | some m => F64.lt m d) then
      { domain with max := some d }
    else domain
  domain

/-- The function `domain_fit_linear` of `domain.cc`. -/
def domain_fit_linear (series_to_float : Series → List F64)
    (data_raw : Series) (domain : DomainConfig) (snap_zero : Bool) : DomainConfig :=
  let data := series_to_float data_raw
  let fit_min := domain.min.isNone
  let fit_max := domain.max.isNone
  let domain := data.foldl (domain_fit_linear_step fit_min fit_max) domain
  let range := F64.sub (domain.max.getD (F64.finite 0)) (domain.min.getD (F64.finite 0))
  let domain :=
    if fit_max then
      { domain with
        max := some (F64.add (domain.max.getD (F64.finite 0)) (F64.mul range domain.padding)) }
    else domain
  let domain :=
    if fit_min then
      if snap_zero && F64.lt (F64.finite 0) (domain.min.getD (F64.finite 0)) then
        { domain with min := some (F64.finite 0) }
      else
        { domain with
          min := some
            (F64.sub (domain.min.getD (F64.finite 0)) (F64.mul range domain.padding)) }
    else domain
  domain

/-- The function `domain_fit_categorical` of `domain.cc`. -/
def domain_fit_categorical (data : Series) (domain : DomainConfig) : DomainConfig :=
  let cache : StringSet :=
    domain.categories.foldl (fun cache d => StringSet.insert cache d) []
  (data.foldl
    (fun (st : StringSet × DomainConfig) d =>
      if StringSet.count st.1 d > 0 then st
      else
        (StringSet.insert st.1 d, { st.2 with categories := st.2.categories ++ [d] }))
    (cache, domain)).2

/-- The function `domain_fit` of `domain.cc`. -/
def domain_fit (series_to_float : Series → List F64)
    (data : Series) (domain : DomainConfig) (snap_zero : Bool) : DomainConfig :=
  match domain.kind with
  | DomainKind.LINEAR => domain_fit_linear series_to_float data domain snap_zero
  | DomainKind.CATEGORICAL => domain_fit_categorical data domain

/-- The finite number that a `double` holds; 0 for an infinity or NaN. -/
def F64.toRat : F64 → ℚ
  | F64.finite q => q
  | _ => 0

/-- The position that the specification gives a value: `(value - min) /
(max - min)` on a LINEAR domain and `(index + 0.5) / count` on a CATEGORICAL
one, and 1 minus that when the domain is inverted; in real numbers. -/
def unit_position (value_to_float : Value → F64) (domain : DomainConfig) (v : Value) : ℚ :=
  let t : ℚ :=
    match domain.kind with
    | DomainKind.LINEAR =>
      ((value_to_float v).toRat - (domain.min.getD (F64.finite 0)).toRat)
        / ((domain.max.getD (F64.finite 0)).toRat - (domain.min.getD (F64.finite 0)).toRat)
    | DomainKind.CATEGORICAL =>
      ((domain.categories.indexOf v : ℚ) + 1 / 2) / (domain.categories.length : ℚ)
  if domain.inverted then 1 - t else t

/-- A coercion of values to numbers for the examples that reaches the large
doubles: the decimal string `n` is read as `2^n`, and `-n` as `-2^n`. -/
def power_to_float (v : Value) : F64 :=
  match v.toList with
  | '-' :: cs =>
    F64.finite (-(2 ^ (cs.foldl (fun n c => 10 * n + (c.toNat - '0'.toNat)) 0)))
  | cs => F64.finite (2 ^ (cs.foldl (fun n c => 10 * n + (c.toNat - '0'.toNat)) 0))

end binary64

end plotfx

/-!
# fviz: the box-model layout (`elements/chart/layout.cc`)

The function `draw` works on a drawing surface, the `Layer`, through
`fillRectangle`, `strokeLine` and the `draw` functions of its child elements.
The embedding keeps the surface as the log of the operations issued on it, in
the order of issue; what a child element paints is one entry of the log, the
call of its `draw` with the layout it is given.  A child's return code is any
function of that layout and of the surface as the child finds it.

Types and helpers that `layout.cc` uses and does not define (`Rectangle`,
`Measure`, `ReturnCode`, `Element`, the surface, `layout_margin_box`) are
modelled from the specification; `convert_unit_typographic` is a parameter.
-/

namespace fviz

/-! ## Collaborators of the layout -/

/-- Modelled from the spec: the result of a fallible step, `ReturnCode`; it
is `OK` or an error, which is passed on unchanged. -/
inductive ReturnCode where
  | OK
  | ERROR (message : String)
  deriving DecidableEq

/-- The test `!rc` on a return code. -/
def ReturnCode.failed : ReturnCode → Bool
  | ReturnCode.OK => false
  | ReturnCode.ERROR _ => true

/-- Modelled from the spec: `Rectangle`, the value `{x, y, w, h}` in absolute
device units. -/
structure Rectangle where
  x : ℚ
  y : ℚ
  w : ℚ
  h : ℚ
  deriving DecidableEq

/-- Modelled from the spec: `Point`, the pair of coordinates that the
drawing primitives take. -/
structure Point where
  x : ℚ
  y : ℚ
  deriving DecidableEq

/-- Modelled from the spec: `Measure`, a length in a unit. `unit` names the
unit and `value` is the number that the conversion to `double` reads. -/
structure Measure where
  unit : String
  value : ℚ
  deriving DecidableEq

/-- Modelled from the spec: the default `Measure()`, a length of zero; an
edge without a size hint keeps it ("contribute zero"). -/
def Measure.zero : Measure :=
  { unit := "unit", value := 0 }

/-- Modelled from the spec: `from_unit(v)`, the measure of `v` absolute units. -/
def from_unit (v : ℚ) : Measure :=
  { unit := "unit", value := v }

/-- Modelled from the spec: a colour, by its four components. -/
structure Color where
  r : ℚ
  g : ℚ
  b : ℚ
  a : ℚ
  deriving DecidableEq

/-- Modelled from the spec: the fill style of `fillRectangle`. -/
structure FillStyle where
  color : Color
  deriving DecidableEq

/-- Modelled from the spec: the stroke style of `strokeLine`. -/
structure StrokeStyle where
  line_width : Measure
  color : Color
  deriving DecidableEq

/-- Modelled from the spec: `LayoutInfo`, the layout that an element is
drawn with; `draw` sets its content box. -/
structure LayoutInfo where
  content_box : Rectangle
  deriving DecidableEq

/-- An operation issued on the drawing surface: a rectangle fill, a line
stroke, or the call of the `draw` function of the child element `element`
with the layout `layout`. -/
inductive Op where
  | fillRectangle (origin : Point) (width height : ℚ) (fill_style : FillStyle)
  | strokeLine (p1 p2 : Point) (stroke_style : StrokeStyle)
  | draw (element : Nat) (layout : LayoutInfo)
  deriving DecidableEq

/-- Whether the operation is a rectangle fill. -/
def Op.isFill : Op → Bool
  | Op.fillRectangle _ _ _ _ => true
  | _ => false

/-- Whether the operation is a line stroke. -/
def Op.isStroke : Op → Bool
  | Op.strokeLine _ _ _ => true
  | _ => false

/-- Whether the operation is the draw of a child element. -/
def Op.isDraw : Op → Bool
  | Op.draw _ _ => true
  | _ => false

/-- Modelled from the spec: the drawing surface, `Layer`: its DPI value and
the operations issued on it so far, oldest first. -/
structure Layer where
  dpi : ℚ
  ops : List Op
  deriving DecidableEq

/-- Modelled from the spec: the primitive `fillRectangle` of the surface. -/
def fillRectangle (layer : Layer) (origin : Point) (width height : ℚ)
    (fill_style : FillStyle) : Layer :=
  { layer with ops := layer.ops ++ [Op.fillRectangle origin width height fill_style] }

/-- Modelled from the spec: the primitive `strokeLine` of the surface. -/
def strokeLine (layer : Layer) (p1 p2 : Point) (stroke_style : StrokeStyle) : Layer :=
  { layer with ops := layer.ops ++ [Op.strokeLine p1 p2 stroke_style] }

/-- Modelled from the spec: a drawable element. `ref` identifies the element
that an `ElementRef` points to. `size_hint`, when the element has one, maps
the surface and the maximum width and height to a return code and the hinted
`(width, height)`. `draw` maps the layout and the surface as the element
finds it to the element's return code. -/
structure Element where
  ref : Nat
  size_hint : Option (Layer → ℚ → ℚ → ReturnCode × ℚ × ℚ)
  draw : LayoutInfo → Layer → ReturnCode

/-- Modelled from the spec: `layout_margin_box`, the rectangle `parent` shrunk
by the four margins (top, right, bottom, left). -/
def layout_margin_box (parent : Rectangle)
    (margin_top margin_right margin_bottom margin_left : ℚ) : Rectangle :=
  { x := parent.x + margin_left
    y := parent.y + margin_top
    w := parent.w - (margin_left + margin_right)
    h := parent.h - (margin_top + margin_bottom) }

/-! ## The layout -/

/-- The `struct PlotBorderConfig` of `layout.cc`. -/
structure PlotBorderConfig where
  color : Color
  width : Measure

/-- The `struct PlotConfig` of `layout.cc`; the arrays of four are indexed
by the edge: 0 top, 1 right, 2 bottom, 3 left. -/
structure PlotConfig where
  font : String
  font_size : Measure
  text_color : Color
  border_color : Color
  margins : Fin 4 → Measure
  background : Option Color
  borders : Fin 4 → PlotBorderConfig
  body_elements : List Element
  margin_elements : Fin 4 → List Element

/-- The start of `draw` (lines 49 to 61): the margins are converted with
`convert_unit_typographic` and the content box of the layout is shrunk by
them. -/
def draw_content_box (convert_unit_typographic : ℚ → Measure → Measure → Measure)
    (config : PlotConfig) (layout : LayoutInfo) (layer : Layer) : Rectangle :=
  let margins : Fin 4 → Measure :=
    fun i => convert_unit_typographic layer.dpi config.font_size (config.margins i)
  layout_margin_box layout.content_box
    (margins 0).value (margins 1).value (margins 2).value (margins 3).value

/-- The inner loop of the size negotiation of `draw` (lines 66 to 88) for the
edge `i`, from the padding `p` on: an element without a size hint is skipped,
a failing size hint ends `draw` with its return code, and any other size hint
raises the padding to the hinted width (odd `i`) or height (even `i`). -/
def draw_size_hints_edge (layer : Layer) (content_box : Rectangle) (i : Fin 4) :
    List Element → Measure → Except ReturnCode Measure
  | [], p => Except.ok p
  | e :: es, p =>
    match e.size_hint with
    | none => draw_size_hints_edge layer content_box i es p
    | some size_hint =>
      let r := size_hint layer content_box.w content_box.h
      if r.1.failed then Except.error r.1
      else
        draw_size_hints_edge layer content_box i es
          (from_unit (max p.value (if i.val % 2 ≠ 0 then r.2.1 else r.2.2)))

/-- The outer loop of the size negotiation of `draw` (lines 65 to 89) over
the edges `is`. -/
def draw_size_hints (layer : Layer) (content_box : Rectangle)
    (margin_elements : Fin 4 → List Element) :
    List (Fin 4) → (Fin 4 → Measure) → Except ReturnCode (Fin 4 → Measure)
  | [], padding => Except.ok padding
  | i :: is, padding =>
    match draw_size_hints_edge layer content_box i (margin_elements i) (padding i) with
    | Except.error rc => Except.error rc
    | Except.ok p =>
      draw_size_hints layer content_box margin_elements is (Function.update padding i p)

/-- The body box of `draw` (lines 91 to 96). -/
def draw_body_box (content_box : Rectangle) (padding : Fin 4 → Measure) : Rectangle :=
  layout_margin_box content_box
    (padding 0).value (padding 1).value (padding 2).value (padding 3).value

/-- The four margin boxes of `draw` (lines 98 to 123). -/
def draw_margin_boxes (content_box body_box : Rectangle) (padding : Fin 4 → Measure) :
    Fin 4 → Rectangle
  | 0 => { x := body_box.x, y := content_box.y, w := body_box.w, h := (padding 0).value }
  | 1 =>
    { x := content_box.x + content_box.w - (padding 1).value, y := body_box.y,
      w := (padding 1).value, h := body_box.h }
  | 2 =>
    { x := body_box.x, y := content_box.y + content_box.h - (padding 2).value,
      w := body_box.w, h := (padding 2).value }
  | 3 => { x := content_box.x, y := body_box.y, w := (padding 3).value, h := body_box.h }

/-- The loop that draws a list of elements with the content box `box`
(lines 140 to 147 for the body, 151 to 158 for an edge): each element's
`draw` is called, and the first failure ends `draw` with its return code. -/
def draw_elements (box : Rectangle) : List Element → Layer → ReturnCode × Layer
  | [], layer => (ReturnCode.OK, layer)
  | e :: es, layer =>
    let layout : LayoutInfo := { content_box := box }
    let rc := e.draw layout layer
    let layer : Layer := { layer with ops := layer.ops ++ [Op.draw e.ref layout] }
    if rc.failed then (rc, layer) else draw_elements box es layer

/-- The loop over the edges `is` that draws the margin elements (lines 150
to 159). -/
def draw_margin_elements (margin_boxes : Fin 4 → Rectangle)
    (margin_elements : Fin 4 → List Element) :
    List (Fin 4) → Layer → ReturnCode × Layer
  | [], layer => (ReturnCode.OK, layer)
  | i :: is, layer =>
    let r := draw_elements (margin_boxes i) (margin_elements i) layer
    if r.1.failed then r
    else draw_margin_elements margin_boxes margin_elements is r.2

/-- The four border blocks of `draw` (lines 161 to 211). -/
def draw_borders (config : PlotConfig) (content_box : Rectangle) (layer : Layer) : Layer :=
  let layer :=
    if (config.borders 0).width.value > 0 then
      strokeLine layer
        { x := content_box.x, y := content_box.y }
        { x := content_box.x + content_box.w, y := content_box.y }
        { line_width := (config.borders 0).width, color := (config.borders 0).color }
    else layer
  let layer :=
    if (config.borders 1).width.value > 0 then
      strokeLine layer
        { x := content_box.x + content_box.w, y := content_box.y }
        { x := content_box.x + content_box.w, y := content_box.y + content_box.h }
        { line_width := (config.borders 1).width, color := (config.borders 1).color }
    else layer
  let layer :=
    if (config.borders 2).width.value > 0 then
      strokeLine layer
        { x := content_box.x, y := content_box.y + content_box.h }
        { x := content_box.x + content_box.w, y := content_box.y + content_box.h }
        { line_width := (config.borders 2).width, color := (config.borders 2).color }
    else layer
  let layer :=
    if (config.borders 3).width.value > 0 then
      strokeLine layer
        { x := content_box.x, y := content_box.y }
        { x := content_box.x, y := content_box.y + content_box.h }
        { line_width := (config.borders 3).width, color := (config.borders 3).color }
    else layer
  layer

/-- The background block of `draw` (lines 125 to 137). -/
def draw_background (config : PlotConfig) (body_box : Rectangle) (layer : Layer) : Layer :=
  match config.background with
  | some color =>
    fillRectangle layer { x := body_box.x, y := body_box.y } body_box.w body_box.h
      { color := color }
  | none => layer

/-- The size negotiation of `draw` (lines 63 to 89) as a whole: the array
`padding` starts as four default measures and the edges 0 to 3 are visited
in turn. -/
def draw_padding (convert_unit_typographic : ℚ → Measure → Measure → Measure)
    (config : PlotConfig) (layout : LayoutInfo) (layer : Layer) :
    Except ReturnCode (Fin 4 → Measure) :=
  draw_size_hints layer (draw_content_box convert_unit_typographic config layout layer)
    config.margin_elements [0, 1, 2, 3] (fun _ => Measure.zero)

/-- The function `draw` of `layout.cc`: the return code and the surface that
it leaves. -/
def draw (convert_unit_typographic : ℚ → Measure → Measure → Measure)
    (config : PlotConfig) (layout : LayoutInfo) (layer : Layer) : ReturnCode × Layer :=
  let content_box := draw_content_box convert_unit_typographic config layout layer
  match draw_padding convert_unit_typographic config layout layer with
  | Except.error rc => (rc, layer)
  | Except.ok padding =>
    let body_box := draw_body_box content_box padding
    let margin_boxes := draw_margin_boxes content_box body_box padding
    let layer := draw_background config body_box layer
    let r := draw_elements body_box config.body_elements layer
    if r.1.failed then r
    else
      let r := draw_margin_elements margin_boxes config.margin_elements [0, 1, 2, 3] r.2
      if r.1.failed then r
      else (ReturnCode.OK, draw_borders config content_box r.2)

/-! ## The specification's view of a draw -/

/-- The surface after the operations `ops` have been issued on it. -/
def Layer.issue (layer : Layer) (ops : List Op) : Layer :=
  { layer with ops := layer.ops ++ ops }

/-- The log entry of the call that draws the element `c.1` with the content
box `c.2`. -/
def call_op (c : Element × Rectangle) : Op :=
  Op.draw c.1.ref { content_box := c.2 }

/-- The return code of the call that draws the element `c.1` with the
content box `c.2` on the surface `layer`. -/
def call_rc (c : Element × Rectangle) (layer : Layer) : ReturnCode :=
  c.1.draw { content_box := c.2 } layer

/-- The calls of a draw in the order of the specification: every body element
in list order with the body box, then the margin elements edge by edge (top,
right, bottom, left) in list order, each with the band of its edge. -/
def draw_sequence (config : PlotConfig) (body_box : Rectangle)
    (margin_boxes : Fin 4 → Rectangle) : List (Element × Rectangle) :=
  config.body_elements.map (fun e => (e, body_box))
    ++ (config.margin_elements 0).map (fun e => (e, margin_boxes 0))
    ++ (config.margin_elements 1).map (fun e => (e, margin_boxes 1))
    ++ (config.margin_elements 2).map (fun e => (e, margin_boxes 2))
    ++ (config.margin_elements 3).map (fun e => (e, margin_boxes 3))

/-- A sequence of calls run in order, stopping at the first call that fails:
the abort-on-first-error policy of the specification. -/
def run_calls : List (Element × Rectangle) → Layer → ReturnCode × Layer
  | [], layer => (ReturnCode.OK, layer)
  | c :: cs, layer =>
    if (call_rc c layer).failed then (call_rc c layer, layer.issue [call_op c])
    else run_calls cs (layer.issue [call_op c])

/-- The fill that the specification asks for: none without a background
colour, else one fill of the box `box` in that colour. -/
def background_ops (config : PlotConfig) (box : Rectangle) : List Op :=
  match config.background with
  | some color =>
    [Op.fillRectangle { x := box.x, y := box.y } box.w box.h { color := color }]
  | none => []

/-- The two corners of the rectangle `box` on the edge `i`: top
`(x, y)-(x+w, y)`, right `(x+w, y)-(x+w, y+h)`, bottom `(x, y+h)-(x+w, y+h)`,
left `(x, y)-(x, y+h)`. -/
def edge_corners (box : Rectangle) : Fin 4 → Point × Point
  | 0 => ({ x := box.x, y := box.y }, { x := box.x + box.w, y := box.y })
  | 1 => ({ x := box.x + box.w, y := box.y }, { x := box.x + box.w, y := box.y + box.h })
  | 2 => ({ x := box.x, y := box.y + box.h }, { x := box.x + box.w, y := box.y + box.h })
  | 3 => ({ x := box.x, y := box.y }, { x := box.x, y := box.y + box.h })

/-- The strokes that the specification asks for on the edge `i`: none when
the border width is not greater than zero, else one stroke between the two
corners of `box` on that edge, in the configured width and colour. -/
def border_ops (config : PlotConfig) (box : Rectangle) (i : Fin 4) : List Op :=
  if (config.borders i).width.value > 0 then
    [Op.strokeLine (edge_corners box i).1 (edge_corners box i).2
      { line_width := (config.borders i).width, color := (config.borders i).color }]
  else []

/-- The extent that a size hint `(width, height)` asks for on the edge `i`:
the height on the top and bottom edges, the width on the right and left. -/
def hinted_extent : Fin 4 → ℚ × ℚ → ℚ
  | 0, hint => hint.2
  | 1, hint => hint.1
  | 2, hint => hint.2
  | 3, hint => hint.1

/-- The interior of a rectangle: the points strictly inside it. -/
def Rectangle.interior (r : Rectangle) (px py : ℚ) : Prop :=
  r.x < px ∧ px < r.x + r.w ∧ r.y < py ∧ py < r.y + r.h

/-! ## Concrete inputs -/

/-- A unit conversion for the examples: a length is read as absolute units. -/
def example_convert (_dpi : ℚ) (_font_size : Measure) (m : Measure) : Measure :=
  from_unit m.value

/-- A colour for the examples. -/
def example_color : Color :=
  { r := 0, g := 0, b := 0, a := 1 }

/-- A body element without a size hint whose draw succeeds. -/
def example_body : Element :=
  { ref := 0, size_hint := none, draw := fun _ _ => ReturnCode.OK }

/-- An element that hints the size `(0, 20)` and whose draw succeeds. -/
def example_top : Element :=
  { ref := 1
    size_hint := some (fun _ _ _ => (ReturnCode.OK, 0, 20))
    draw := fun _ _ => ReturnCode.OK }

/-- An element whose draw fails. -/
def example_failing : Element :=
  { ref := 2, size_hint := none, draw := fun _ _ => ReturnCode.ERROR "draw failed" }

/-- An element whose size hint fails. -/
def example_unsized : Element :=
  { ref := 3
    size_hint := some (fun _ _ _ => (ReturnCode.ERROR "no size", 0, 0))
    draw := fun _ _ => ReturnCode.OK }

/-- The margin elements of the examples: `example_top` on the top edge. -/
def example_margin_elements : Fin 4 → List Element
  | 0 => [example_top]
  | _ => []

/-- A layout configuration for the examples: all margins 0, a background, a
top border of width 2 and no other border, one body element and one element
on the top edge. -/
def example_config : PlotConfig :=
  { font := "sans"
    font_size := from_unit 12
    text_color := example_color
    border_color := example_color
    margins := fun _ => from_unit 0
    background := some example_color
    borders := fun i =>
      { color := example_color, width := if i = 0 then from_unit 2 else from_unit 0 }
    body_elements := [example_body]
    margin_elements := example_margin_elements }

/-- The example configuration with a failing element between two body
elements. -/
def example_config_failing : PlotConfig :=
  { example_config with body_elements := [example_body, example_failing, example_body] }

/-- The example configuration with an element on the right edge whose size
hint fails. -/
def example_config_unsized : PlotConfig :=
  { example_config with
    margin_elements := fun i => if i = 1 then [example_unsized] else example_margin_elements i }

/-- The layout of the examples: the content box `{0, 0, 100, 100}`. -/
def example_layout : LayoutInfo :=
  { content_box := { x := 0, y := 0, w := 100, h := 100 } }

/-- The surface of the examples: nothing drawn yet. -/
def example_layer : Layer :=
  { dpi := 96, ops := [] }

/-- The paddings of the examples: 20 on the top edge, 0 on the others. -/
def example_padding : Fin 4 → Measure
  | 0 => from_unit 20
  | _ => Measure.zero

end fviz

namespace plotfx

/-! ## Properties of translation -/

/-- The loop of `domain_translate_linear` appends to what is already mapped. -/
theorem translate_linear_loop (f : Value → Double) (series : Series) (acc : List Double) :
    series.foldl (fun mapped v => mapped ++ [f v]) acc = acc ++ series.map f := by
  induction series generalizing acc with
  | nil => simp
  | cons v vs ih => simp [ih]

/-- The linear translation maps each value on its own. -/
theorem domain_translate_linear_eq_map (value_to_float : Value → ℚ)
    (domain : DomainConfig) (series : Series) :
    domain_translate_linear value_to_float domain series
      = series.map (fun v =>
          let vt := Double.div (value_to_float v - domain.min.getD 0)
            (domain.max.getD 0 - domain.min.getD 0)
          if domain.inverted then Double.sub (Double.finite 1) vt else vt) := by
  unfold domain_translate_linear
  simp only []
  rw [translate_linear_loop]
  simp

/-- C1. Round trip: on a LINEAR domain with preset bounds `min < max`,
`domain_untranslate` applied to the single output of `domain_translate` on
`[v]` returns the number `v`, whether the domain is inverted or not. -/
theorem domain_untranslate_translate (value_to_float : Value → ℚ)
    (d : DomainConfig) (lo hi : ℚ) (v : Value)
    (hkind : d.kind = DomainKind.LINEAR)
    (hmin : d.min = some lo) (hmax : d.max = some hi) (hlt : lo < hi) :
    (domain_translate value_to_float d [v]).map (domain_untranslate d)
      = [Double.finite (value_to_float v)] := by
  have hne : hi - lo ≠ 0 := sub_ne_zero.mpr (ne_of_gt hlt)
  unfold domain_translate
  rw [hkind]
  simp only [domain_translate_linear_eq_map, domain_untranslate, hkind, hmin, hmax,
    Option.getD_some, List.map_cons, List.map_nil, Double.div, if_neg hne]
  cases d.inverted
  · simp only [Bool.false_eq_true, if_false, Double.mul, Double.add]
    congr 2
    field_simp
  · simp only [if_true, Double.sub, Double.mul, Double.add]
    congr 2
    field_simp

/-! ### The lookup table -/

/-- A lookup in a table extended by one entry at its end. -/
theorem lookup_append_singleton (c : Cache) (k x : String) (v : ℚ) :
    List.lookup k (c ++ [(x, v)])
      = (List.lookup k c).orElse (fun _ => if k = x then some v else none) := by
  induction c with
  | nil =>
    by_cases h : k = x
    · simp [List.lookup, h]
    · have hb : (k == x) = false := by simpa using h
      simp [List.lookup, h, hb]
  | cons p ps ih =>
    obtain ⟨a, b⟩ := p
    by_cases h : k = a
    · simp [List.lookup, h]
    · have hb : (k == a) = false := by simpa using h
      rw [List.cons_append, List.lookup_cons, List.lookup_cons, hb]
      exact ih

/-- A lookup after `emplace`. -/
theorem lookup_emplace (c : Cache) (k x : String) (v : ℚ) :
    List.lookup k (c.emplace x v)
      = (List.lookup k c).orElse (fun _ => if k = x then some v else none) := by
  unfold Cache.emplace
  cases hx : List.lookup x c with
  | none => simp only [lookup_append_singleton]
  | some w =>
    by_cases h : k = x
    · subst h
      simp [hx]
    · cases List.lookup k c <;> simp [h]

/-- What the filled table holds: an entry that was there stays, and a
category that was not there gets the index of its first occurrence. -/
theorem lookup_fill_cache (cs : List String) (i : Nat) (c : Cache) (k : String) :
    List.lookup k (fill_cache cs i c)
      = (List.lookup k c).orElse
          (fun _ => if k ∈ cs then some (((i + cs.indexOf k : Nat)) : ℚ) else none) := by
  induction cs generalizing i c with
  | nil => cases h : List.lookup k c <;> simp [fill_cache, h]
  | cons x xs ih =>
    simp only [fill_cache, ih, lookup_emplace]
    cases List.lookup k c with
    | some w => simp
    | none =>
      by_cases h : k = x
      · subst h
        simp
      · have hx : x ≠ k := fun e => h e.symm
        simp [h, List.indexOf_cons_ne _ hx, Nat.add_assoc, Nat.add_comm 1]

/-- The value `operator[]` reads, and the lookups in the table it leaves. -/
theorem index_spec (c : Cache) (v : String) :
    (c.index v).1 = (List.lookup v c).getD 0
      ∧ ∀ k, (List.lookup k (c.index v).2).getD 0 = (List.lookup k c).getD 0 := by
  unfold Cache.index
  cases hv : List.lookup v c with
  | some w => simp [hv]
  | none =>
    refine ⟨by simp, fun k => ?_⟩
    simp only [lookup_append_singleton]
    cases List.lookup k c with
    | some w => simp
    | none => by_cases h : k = v <;> simp [h]

/-- The second loop of `domain_translate_categorical` maps each value on its
own; the entries that `operator[]` adds do not change what is read. -/
theorem translate_categorical_loop (g : ℚ → Double) (series : Series)
    (c : Cache) (acc : List Double) :
    (series.foldl
      (fun (st : Cache × List Double) v => ((st.1.index v).2, st.2 ++ [g (st.1.index v).1]))
      (c, acc)).2
      = acc ++ series.map (fun v => g ((List.lookup v c).getD 0)) := by
  induction series generalizing c acc with
  | nil => simp
  | cons v vs ih =>
    obtain ⟨h1, h2⟩ := index_spec c v
    simp only [List.foldl_cons, ih, List.map_cons, h1, h2, List.append_assoc,
      List.singleton_append]

/-- The categorical translation maps each value on its own: a value that is a
category is read as the index of its first occurrence, any other value as 0. -/
theorem domain_translate_categorical_eq_map (domain : DomainConfig) (series : Series) :
    domain_translate_categorical domain series
      = series.map (fun v =>
          let vt := Double.add
            (Double.div (if v ∈ domain.categories then (domain.categories.indexOf v : ℚ) else 0)
              (domain.categories.length : ℚ))
            (Double.div (1 / 2) (domain.categories.length : ℚ))
          if domain.inverted then Double.sub (Double.finite 1) vt else vt) := by
  unfold domain_translate_categorical
  simp only []
  rw [translate_categorical_loop
    (fun q =>
      if domain.inverted then
        Double.sub (Double.finite 1)
          (Double.add (Double.div q (domain.categories.length : ℚ))
            (Double.div (1 / 2) (domain.categories.length : ℚ)))
      else
        Double.add (Double.div q (domain.categories.length : ℚ))
          (Double.div (1 / 2) (domain.categories.length : ℚ)))]
  simp only [List.nil_append, lookup_fill_cache, List.lookup, Option.orElse, Nat.zero_add]
  apply List.map_congr_left
  intro v _
  by_cases hv : v ∈ domain.categories <;> simp [hv]

/-- C2. Inversion law: on a LINEAR domain with `min != max`, or a CATEGORICAL
domain whose categories hold every value of the series, `domain_translate`
returns finite numbers, and with `inverted = true` it returns, position by
position, 1 minus what it returns with `inverted = false`. -/
theorem domain_translate_inverted (value_to_float : Value → ℚ)
    (d : DomainConfig) (s : Series)
    (h : (d.kind = DomainKind.LINEAR ∧ d.min.getD 0 ≠ d.max.getD 0)
      ∨ (d.kind = DomainKind.CATEGORICAL ∧ ∀ v ∈ s, v ∈ d.categories)) :
    ∃ ts : List ℚ,
      domain_translate value_to_float { d with inverted := false } s
          = ts.map Double.finite
        ∧ domain_translate value_to_float { d with inverted := true } s
          = ts.map (fun t => Double.finite (1 - t)) := by
  rcases h with ⟨hk, hne⟩ | ⟨hk, hs⟩
  · have hz : d.max.getD 0 - d.min.getD 0 ≠ 0 := sub_ne_zero.mpr (Ne.symm hne)
    refine ⟨s.map (fun v => (value_to_float v - d.min.getD 0) / (d.max.getD 0 - d.min.getD 0)),
      ?_, ?_⟩
    · simp [domain_translate, hk, domain_translate_linear_eq_map, Double.div, hz]
    · simp [domain_translate, hk, domain_translate_linear_eq_map, Double.div, hz, Double.sub]
  · refine ⟨s.map (fun v => (d.categories.indexOf v : ℚ) / (d.categories.length : ℚ)
        + (1 / 2) / (d.categories.length : ℚ)), ?_, ?_⟩
    · simp only [domain_translate, hk, domain_translate_categorical_eq_map, List.map_map]
      apply List.map_congr_left
      intro v hv
      have hz : (d.categories.length : ℚ) ≠ 0 := by
        have := List.length_pos_of_mem (hs v hv)
        exact_mod_cast this.ne'
      simp [hs v hv, Double.div, hz, Double.add]
    · simp only [domain_translate, hk, domain_translate_categorical_eq_map, List.map_map]
      apply List.map_congr_left
      intro v hv
      have hz : (d.categories.length : ℚ) ≠ 0 := by
        have := List.length_pos_of_mem (hs v hv)
        exact_mod_cast this.ne'
      simp [hs v hv, Double.div, hz, Double.add, Double.sub]

/-- Witness of C2: a LINEAR domain with bounds 0 and 10 and the series `["5"]`. -/
theorem domain_translate_inverted_witness :
    (({ min := some 0, max := some 10 } : DomainConfig).kind = DomainKind.LINEAR
        ∧ ({ min := some 0, max := some 10 } : DomainConfig).min.getD 0
          ≠ ({ min := some 0, max := some 10 } : DomainConfig).max.getD 0)
      ∧ ∃ ts : List ℚ,
        domain_translate digits_to_float
            { ({ min := some 0, max := some 10 } : DomainConfig) with inverted := false } ["5"]
            = ts.map Double.finite
          ∧ domain_translate digits_to_float
            { ({ min := some 0, max := some 10 } : DomainConfig) with inverted := true } ["5"]
            = ts.map (fun t => Double.finite (1 - t)) :=
  ⟨⟨rfl, by simp⟩,
    domain_translate_inverted digits_to_float { min := some 0, max := some 10 } ["5"]
      (Or.inl ⟨rfl, by simp⟩)⟩

/-- Witness of C1: the domain with bounds 0 and 10, inverted, and the value `"5"`. -/
theorem domain_untranslate_translate_witness :
    (0 : ℚ) < 10
      ∧ (domain_translate digits_to_float
            { min := some 0, max := some 10, inverted := true } ["5"]).map
          (domain_untranslate { min := some 0, max := some 10, inverted := true })
        = [Double.finite (digits_to_float "5")] :=
  ⟨by norm_num,
    domain_untranslate_translate digits_to_float
      { min := some 0, max := some 10, inverted := true } 0 10 "5" rfl rfl rfl (by norm_num)⟩

/-! ## Properties of fitting -/

/-- The loop body leaves `kind`, `inverted`, `padding` and `categories` alone. -/
theorem fit_step_frame (fit_min fit_max : Bool) (dom : DomainConfig) (d : ℚ) :
    (domain_fit_linear_step fit_min fit_max dom d).kind = dom.kind
      ∧ (domain_fit_linear_step fit_min fit_max dom d).inverted = dom.inverted
      ∧ (domain_fit_linear_step fit_min fit_max dom d).padding = dom.padding
      ∧ (domain_fit_linear_step fit_min fit_max dom d).categories = dom.categories := by
  unfold domain_fit_linear_step
  simp only []
  split_ifs <;> simp

/-- The loop body, seen from `min`: a running minimum when `fit_min` holds. -/
theorem fit_step_min (fit_min fit_max : Bool) (dom : DomainConfig) (d : ℚ) :
    (domain_fit_linear_step fit_min fit_max dom d).min
      = if fit_min then
          (match dom.min with
            | none => some d
            | some m => if m > d then some d else some m)
        else dom.min := by
  unfold domain_fit_linear_step
  cases fit_min <;> cases hm : dom.min <;> simp only [hm] <;> split_ifs <;> simp_all

/-- The loop body, seen from `max`: a running maximum when `fit_max` holds. -/
theorem fit_step_max (fit_min fit_max : Bool) (dom : DomainConfig) (d : ℚ) :
    (domain_fit_linear_step fit_min fit_max dom d).max
      = if fit_max then
          (match dom.max with
            | none => some d
            | some m => if m < d then some d else some m)
        else dom.max := by
  unfold domain_fit_linear_step
  cases fit_max <;> cases hm : dom.max <;> simp only [hm] <;> split_ifs <;> simp_all

/-- The loop leaves `kind`, `inverted`, `padding` and `categories` alone. -/
theorem fit_loop_frame (fit_min fit_max : Bool) (data : List ℚ) (dom : DomainConfig) :
    (data.foldl (domain_fit_linear_step fit_min fit_max) dom).kind = dom.kind
      ∧ (data.foldl (domain_fit_linear_step fit_min fit_max) dom).inverted = dom.inverted
      ∧ (data.foldl (domain_fit_linear_step fit_min fit_max) dom).padding = dom.padding
      ∧ (data.foldl (domain_fit_linear_step fit_min fit_max) dom).categories
          = dom.categories := by
  induction data generalizing dom with
  | nil => simp
  | cons d ds ih =>
    obtain ⟨h1, h2, h3, h4⟩ := fit_step_frame fit_min fit_max dom d
    obtain ⟨i1, i2, i3, i4⟩ := ih (domain_fit_linear_step fit_min fit_max dom d)
    simp only [List.foldl_cons]
    exact ⟨i1.trans h1, i2.trans h2, i3.trans h3, i4.trans h4⟩

/-- A bound that is not fitted is not touched by the loop: `min`. -/
theorem fit_loop_min_keep (fit_max : Bool) (data : List ℚ) (dom : DomainConfig) :
    (data.foldl (domain_fit_linear_step false fit_max) dom).min = dom.min := by
  induction data generalizing dom with
  | nil => simp
  | cons d ds ih => simp [List.foldl_cons, ih, fit_step_min]

/-- A bound that is not fitted is not touched by the loop: `max`. -/
theorem fit_loop_max_keep (fit_min : Bool) (data : List ℚ) (dom : DomainConfig) :
    (data.foldl (domain_fit_linear_step fit_min false) dom).max = dom.max := by
  induction data generalizing dom with
  | nil => simp
  | cons d ds ih => simp [List.foldl_cons, ih, fit_step_max]

/-- The loop run from a `min` that holds `m0`, when `min` is fitted: `min`
ends as the least of `m0` and the data. -/
theorem fit_loop_min_some (fit_max : Bool) (data : List ℚ) (dom : DomainConfig) (m0 : ℚ)
    (h : dom.min = some m0) :
    ∃ m, (data.foldl (domain_fit_linear_step true fit_max) dom).min = some m
      ∧ m ≤ m0 ∧ (∀ d ∈ data, m ≤ d) ∧ (m = m0 ∨ m ∈ data) := by
  induction data generalizing dom m0 with
  | nil => exact ⟨m0, by simpa using h, le_refl _, by simp, Or.inl rfl⟩
  | cons d ds ih =>
    simp only [List.foldl_cons]
    by_cases hgt : m0 > d
    · have hs : (domain_fit_linear_step true fit_max dom d).min = some d := by
        simp [fit_step_min, h, hgt]
      obtain ⟨m, e, le0, hall, hmem⟩ := ih _ d hs
      refine ⟨m, e, le_trans le0 (le_of_lt hgt), ?_, ?_⟩
      · intro x hx
        rcases List.mem_cons.mp hx with rfl | hx
        · exact le0
        · exact hall x hx
      · rcases hmem with rfl | hmem
        · exact Or.inr (List.mem_cons_self _ _)
        · exact Or.inr (List.mem_cons_of_mem _ hmem)
    · have hs : (domain_fit_linear_step true fit_max dom d).min = some m0 := by
        simp [fit_step_min, h, hgt]
      obtain ⟨m, e, le0, hall, hmem⟩ := ih _ m0 hs
      refine ⟨m, e, le0, ?_, ?_⟩
      · intro x hx
        rcases List.mem_cons.mp hx with rfl | hx
        · exact le_trans le0 (not_lt.mp hgt)
        · exact hall x hx
      · rcases hmem with rfl | hmem
        · exact Or.inl rfl
        · exact Or.inr (List.mem_cons_of_mem _ hmem)

/-- The loop run from an unset `min` over a non-empty series: `min` ends as
the least value of the series. -/
theorem fit_loop_min_none (fit_max : Bool) (data : List ℚ) (dom : DomainConfig)
    (h : dom.min = none) (hne : data ≠ []) :
    ∃ m, (data.foldl (domain_fit_linear_step true fit_max) dom).min = some m
      ∧ m ∈ data ∧ ∀ d ∈ data, m ≤ d := by
  cases data with
  | nil => exact absurd rfl hne
  | cons d ds =>
    have hs : (domain_fit_linear_step true fit_max dom d).min = some d := by
      simp [fit_step_min, h]
    obtain ⟨m, e, le0, hall, hmem⟩ := fit_loop_min_some fit_max ds _ d hs
    refine ⟨m, by simpa using e, ?_, ?_⟩
    · rcases hmem with rfl | hmem
      · exact List.mem_cons_self _ _
      · exact List.mem_cons_of_mem _ hmem
    · intro x hx
      rcases List.mem_cons.mp hx with rfl | hx
      · exact le0
      · exact hall x hx

/-- C3. On a LINEAR domain whose `min` is unset (any padding, `max` set or
unset) and a non-empty series whose values are all strictly positive,
`domain_fit` with `snap_zero = true` leaves `min` set to exactly 0. -/
theorem domain_fit_snap_zero (series_to_float : Series → List ℚ)
    (data : Series) (d : DomainConfig)
    (hkind : d.kind = DomainKind.LINEAR) (hmin : d.min = none)
    (hne : series_to_float data ≠ [])
    (hpos : ∀ x ∈ series_to_float data, 0 < x) :
    (domain_fit series_to_float data d true).min = some 0 := by
  obtain ⟨m, e, hmem, _⟩ := fit_loop_min_none d.max.isNone (series_to_float data) d hmin hne
  have hm : 0 < m := hpos m hmem
  unfold domain_fit
  rw [hkind]
  simp only [domain_fit_linear, hmin, Option.isNone_none, if_true]
  cases hmax : d.max.isNone
  · simp only [hmax] at e
    simp [e, hm]
  · simp only [hmax] at e
    simp [e, hm]

/-- Witness of C3: the default domain with padding 1/10 and the series
`["3", "1", "2"]`. -/
theorem domain_fit_snap_zero_witness :
    (digits_series_to_float ["3", "1", "2"] ≠ []
        ∧ ∀ x ∈ digits_series_to_float ["3", "1", "2"], 0 < x)
      ∧ (domain_fit digits_series_to_float ["3", "1", "2"] { padding := 1 / 10 } true).min
        = some 0 :=
  ⟨⟨by simp [digits_series_to_float], by simp [digits_series_to_float, digits_to_float]⟩,
    domain_fit_snap_zero digits_series_to_float ["3", "1", "2"] { padding := 1 / 10 } rfl rfl
      (by simp [digits_series_to_float])
      (by simp [digits_series_to_float, digits_to_float])⟩

/-- What the set holds after an insertion. -/
theorem mem_insert (s : StringSet) (x y : String) :
    y ∈ StringSet.insert s x ↔ y ∈ s ∨ y = x := by
  unfold StringSet.insert
  by_cases h : x ∈ s
  · simp only [if_pos h]
    constructor
    · exact Or.inl
    · rintro (h1 | rfl)
      · exact h1
      · exact h
  · simp [if_neg h]

/-- The first loop of `domain_fit_categorical` collects the categories. -/
theorem mem_fit_cache (cs : List String) (acc : StringSet) (y : String) :
    y ∈ cs.foldl (fun cache d => StringSet.insert cache d) acc ↔ y ∈ acc ∨ y ∈ cs := by
  induction cs generalizing acc with
  | nil => simp
  | cons c cs ih =>
    simp only [List.foldl_cons, ih, mem_insert, List.mem_cons]
    tauto

/-- The second loop of `domain_fit_categorical`, run from a set that holds
exactly the categories: it changes `categories` only, appending a list `L`
without duplicates that holds exactly the labels of the series that are not
categories yet, in the order of their first occurrence in the series. -/
theorem fit_categorical_loop (data : Series) (cache : StringSet) (dom : DomainConfig)
    (hinv : ∀ x, x ∈ cache ↔ x ∈ dom.categories) :
    ∃ L : List String,
      (data.foldl domain_fit_categorical_step (cache, dom)).2
          = { dom with categories := dom.categories ++ L }
        ∧ L.Nodup
        ∧ (∀ x, x ∈ L ↔ x ∈ data ∧ x ∉ dom.categories)
        ∧ L.Pairwise (fun x y => data.indexOf x < data.indexOf y) := by
  induction data generalizing cache dom with
  | nil => exact ⟨[], by simp, List.nodup_nil, by simp, List.Pairwise.nil⟩
  | cons d ds ih =>
    by_cases hd : d ∈ cache
    · have hstep : domain_fit_categorical_step (cache, dom) d = (cache, dom) := by
        simp [domain_fit_categorical_step, StringSet.count, hd]
      obtain ⟨L, e, hnd, hmem, hord⟩ := ih cache dom hinv
      have hdC : d ∈ dom.categories := (hinv d).mp hd
      refine ⟨L, by rw [List.foldl_cons, hstep]; exact e, hnd, ?_, ?_⟩
      · intro x
        rw [hmem x, List.mem_cons]
        constructor
        · rintro ⟨h1, h2⟩
          exact ⟨Or.inr h1, h2⟩
        · rintro ⟨h1 | h1, h2⟩
          · exact absurd (h1 ▸ hdC) h2
          · exact ⟨h1, h2⟩
      · refine hord.imp_of_mem ?_
        intro a b ha hb hab
        have hna : d ≠ a := fun e => ((hmem a).mp ha).2 (e ▸ hdC)
        have hnb : d ≠ b := fun e => ((hmem b).mp hb).2 (e ▸ hdC)
        rw [List.indexOf_cons_ne _ hna, List.indexOf_cons_ne _ hnb]
        exact Nat.succ_lt_succ hab
    · have hstep : domain_fit_categorical_step (cache, dom) d
          = (StringSet.insert cache d, { dom with categories := dom.categories ++ [d] }) := by
        simp [domain_fit_categorical_step, StringSet.count, hd]
      have hdC : d ∉ dom.categories := fun h => hd ((hinv d).mpr h)
      have hinv2 : ∀ x, x ∈ StringSet.insert cache d
          ↔ x ∈ ({ dom with categories := dom.categories ++ [d] } : DomainConfig).categories := by
        intro x
        simp [mem_insert, hinv x]
      obtain ⟨L, e, hnd, hmem, hord⟩ := ih _ _ hinv2
      have hmem2 : ∀ x, x ∈ L ↔ x ∈ ds ∧ x ∉ dom.categories ∧ x ≠ d := by
        intro x
        rw [hmem x]
        simp [not_or]
      refine ⟨d :: L, ?_, ?_, ?_, ?_⟩
      · rw [List.foldl_cons, hstep, e]
        simp
      · exact List.nodup_cons.mpr ⟨fun h => ((hmem2 d).mp h).2.2 rfl, hnd⟩
      · intro x
        rw [List.mem_cons, hmem2 x, List.mem_cons]
        by_cases hx : x = d
        · subst hx
          simp [hdC]
        · simp [hx]
      · refine List.pairwise_cons.mpr ⟨?_, ?_⟩
        · intro b hb
          have hnb : d ≠ b := fun e => ((hmem2 b).mp hb).2.2 e.symm
          rw [List.indexOf_cons_self, List.indexOf_cons_ne _ hnb]
          exact Nat.succ_pos _
        · refine hord.imp_of_mem ?_
          intro a b ha hb hab
          have hna : d ≠ a := fun e => ((hmem2 a).mp ha).2.2 e.symm
          have hnb : d ≠ b := fun e => ((hmem2 b).mp hb).2.2 e.symm
          rw [List.indexOf_cons_ne _ hna, List.indexOf_cons_ne _ hnb]
          exact Nat.succ_lt_succ hab

/-- The result of `domain_fit_categorical`: `categories` gets a list `L`
appended, and nothing else changes. -/
theorem domain_fit_categorical_spec (data : Series) (dom : DomainConfig) :
    ∃ L : List String,
      domain_fit_categorical data dom = { dom with categories := dom.categories ++ L }
        ∧ L.Nodup
        ∧ (∀ x, x ∈ L ↔ x ∈ data ∧ x ∉ dom.categories)
        ∧ L.Pairwise (fun x y => data.indexOf x < data.indexOf y) := by
  unfold domain_fit_categorical
  exact fit_categorical_loop data _ dom (fun x => by simp [mem_fit_cache])

/-- C7. On a CATEGORICAL domain with categories `C`, `domain_fit` leaves
`categories` equal to `C` followed by a list `L` that has no duplicates,
holds exactly the labels of the series that are not in `C`, and lists them
in the order of their first occurrence in the series. -/
theorem domain_fit_categories (series_to_float : Series → List ℚ)
    (data : Series) (d : DomainConfig) (snap_zero : Bool)
    (hkind : d.kind = DomainKind.CATEGORICAL) :
    ∃ L : List String,
      (domain_fit series_to_float data d snap_zero).categories = d.categories ++ L
        ∧ L.Nodup
        ∧ (∀ x, x ∈ L ↔ x ∈ data ∧ x ∉ d.categories)
        ∧ L.Pairwise (fun x y => data.indexOf x < data.indexOf y) := by
  obtain ⟨L, e, hnd, hmem, hord⟩ := domain_fit_categorical_spec data d
  refine ⟨L, ?_, hnd, hmem, hord⟩
  unfold domain_fit
  rw [hkind]
  simp only [e]

/-- Witness of C7: categories `["a"]` fitted to the series `["b", "a", "c", "b"]`. -/
theorem domain_fit_categories_witness :
    ({ kind := DomainKind.CATEGORICAL, categories := ["a"] } : DomainConfig).kind
        = DomainKind.CATEGORICAL
      ∧ ∃ L : List String,
        (domain_fit digits_series_to_float ["b", "a", "c", "b"]
            { kind := DomainKind.CATEGORICAL, categories := ["a"] } false).categories
            = ({ kind := DomainKind.CATEGORICAL, categories := ["a"] } : DomainConfig).categories
              ++ L
          ∧ L.Nodup
          ∧ (∀ x, x ∈ L ↔ x ∈ ["b", "a", "c", "b"]
              ∧ x ∉ ({ kind := DomainKind.CATEGORICAL, categories := ["a"] }
                  : DomainConfig).categories)
          ∧ L.Pairwise (fun x y =>
              List.indexOf x ["b", "a", "c", "b"] < List.indexOf y ["b", "a", "c", "b"]) :=
  ⟨rfl,
    domain_fit_categories digits_series_to_float ["b", "a", "c", "b"]
      { kind := DomainKind.CATEGORICAL, categories := ["a"] } false rfl⟩

/-- C6. Categorical fit is idempotent: on a CATEGORICAL domain, applying
`domain_fit` with a series twice leaves the same `categories` as applying it
once. -/
theorem domain_fit_categorical_idempotent (series_to_float : Series → List ℚ)
    (data : Series) (d : DomainConfig) (snap_zero : Bool)
    (hkind : d.kind = DomainKind.CATEGORICAL) :
    (domain_fit series_to_float data
        (domain_fit series_to_float data d snap_zero) snap_zero).categories
      = (domain_fit series_to_float data d snap_zero).categories := by
  obtain ⟨L, e, _, hmem, _⟩ := domain_fit_categorical_spec data d
  have e1 : domain_fit series_to_float data d snap_zero
      = { d with categories := d.categories ++ L } := by
    unfold domain_fit
    simp only [hkind, e]
  rw [e1]
  obtain ⟨L2, e2, _, hmem2, _⟩ :=
    domain_fit_categorical_spec data { d with categories := d.categories ++ L }
  have hnil : L2 = [] := by
    apply List.eq_nil_iff_forall_not_mem.mpr
    intro x hx
    obtain ⟨hxd, hxn⟩ := (hmem2 x).mp hx
    apply hxn
    by_cases hc : x ∈ d.categories
    · exact List.mem_append_left _ hc
    · exact List.mem_append_right _ ((hmem x).mpr ⟨hxd, hc⟩)
  have e3 : domain_fit series_to_float data { d with categories := d.categories ++ L } snap_zero
      = domain_fit_categorical data { d with categories := d.categories ++ L } := by
    unfold domain_fit
    simp only [hkind]
  rw [e3, e2, hnil]
  simp

/-- Witness of C6: categories `["a"]` fitted twice to the series `["b", "a", "b"]`. -/
theorem domain_fit_categorical_idempotent_witness :
    ({ kind := DomainKind.CATEGORICAL, categories := ["a"] } : DomainConfig).kind
        = DomainKind.CATEGORICAL
      ∧ (domain_fit digits_series_to_float ["b", "a", "b"]
          (domain_fit digits_series_to_float ["b", "a", "b"]
            { kind := DomainKind.CATEGORICAL, categories := ["a"] } false) false).categories
        = (domain_fit digits_series_to_float ["b", "a", "b"]
            { kind := DomainKind.CATEGORICAL, categories := ["a"] } false).categories :=
  ⟨rfl,
    domain_fit_categorical_idempotent digits_series_to_float ["b", "a", "b"]
      { kind := DomainKind.CATEGORICAL, categories := ["a"] } false rfl⟩

/-- C5. Categorical translate puts each category at the centre of its slot:
on a CATEGORICAL, non-inverted domain whose `N` categories are distinct, the
output has one entry per series value, and the entry for a value that stands
at index `i` of `categories` is `(i + 0.5) / N`; for categories `["a", "b"]`
the series `["a", "b"]` translates to `[0.25, 0.75]`. -/
theorem domain_translate_categorical_centre (value_to_float : Value → ℚ)
    (d : DomainConfig) (s : Series)
    (hkind : d.kind = DomainKind.CATEGORICAL) (hinv : d.inverted = false)
    (hnodup : d.categories.Nodup) :
    (domain_translate value_to_float d s).length = s.length
      ∧ (∀ (j i : Nat) (v : Value), s[j]? = some v → d.categories[i]? = some v →
          (domain_translate value_to_float d s)[j]?
            = some (Double.finite (((i : ℚ) + 1 / 2) / (d.categories.length : ℚ))))
      ∧ domain_translate value_to_float
          { kind := DomainKind.CATEGORICAL, categories := ["a", "b"] } ["a", "b"]
        = [Double.finite (1 / 4), Double.finite (3 / 4)] := by
  refine ⟨?_, ?_, ?_⟩
  · simp [domain_translate, hkind, domain_translate_categorical_eq_map]
  · intro j i v hj hi
    obtain ⟨hlt, hget⟩ := List.getElem?_eq_some.mp hi
    have hv : v ∈ d.categories := hget ▸ List.getElem_mem hlt
    have hidx : d.categories.indexOf v = i := by
      rw [← hget]
      exact List.indexOf_getElem hnodup i hlt
    have hz : (d.categories.length : ℚ) ≠ 0 := by
      have : 0 < d.categories.length := Nat.lt_of_le_of_lt (Nat.zero_le _) hlt
      exact_mod_cast this.ne'
    simp only [domain_translate, hkind, domain_translate_categorical_eq_map,
      List.getElem?_map, hj, Option.map_some', hinv, hv, if_true, hidx, Double.div,
      if_neg hz, Double.add, Bool.false_eq_true, if_false]
    congr 2
    field_simp
    ring
  · simp only [domain_translate, domain_translate_categorical_eq_map]
    simp [Double.div, Double.add]
    norm_num

/-- Witness of C5: categories `["x", "y", "z"]` and the series `["z", "x"]`. -/
theorem domain_translate_categorical_centre_witness :
    (({ kind := DomainKind.CATEGORICAL, categories := ["x", "y", "z"] } : DomainConfig).kind
        = DomainKind.CATEGORICAL
      ∧ ({ kind := DomainKind.CATEGORICAL, categories := ["x", "y", "z"] }
          : DomainConfig).categories.Nodup)
    ∧ ((domain_translate digits_to_float
          { kind := DomainKind.CATEGORICAL, categories := ["x", "y", "z"] } ["z", "x"]).length
        = ["z", "x"].length
      ∧ (∀ (j i : Nat) (v : Value), ["z", "x"][j]? = some v →
          ({ kind := DomainKind.CATEGORICAL, categories := ["x", "y", "z"] }
            : DomainConfig).categories[i]? = some v →
          (domain_translate digits_to_float
            { kind := DomainKind.CATEGORICAL, categories := ["x", "y", "z"] } ["z", "x"])[j]?
            = some (Double.finite (((i : ℚ) + 1 / 2)
                / (({ kind := DomainKind.CATEGORICAL, categories := ["x", "y", "z"] }
                    : DomainConfig).categories.length : ℚ))))
      ∧ domain_translate digits_to_float
          { kind := DomainKind.CATEGORICAL, categories := ["a", "b"] } ["a", "b"]
        = [Double.finite (1 / 4), Double.finite (3 / 4)]) :=
  ⟨⟨rfl, by decide⟩,
    domain_translate_categorical_centre digits_to_float
      { kind := DomainKind.CATEGORICAL, categories := ["x", "y", "z"] } ["z", "x"]
      rfl rfl (by decide)⟩

/-! ## Degenerate domains and unknown labels -/

/-- C8 fails as stated: `domain_translate` has no error result. On the LINEAR
domain with `min = max = 1`, on the unfit default domain and on the
CATEGORICAL domain without categories, a one-element series is translated to
a one-element vector that holds the non-finite result of the division by
zero. -/
theorem domain_translate_degenerate_counterexample :
    domain_translate digits_to_float { min := some 1, max := some 1 } ["2"]
        = [Double.nonfinite]
      ∧ domain_translate digits_to_float { } ["2"] = [Double.nonfinite]
      ∧ domain_translate digits_to_float { kind := DomainKind.CATEGORICAL } ["a"]
        = [Double.nonfinite] := by
  refine ⟨?_, ?_, ?_⟩
  · simp [domain_translate, domain_translate_linear, Double.div]
  · simp [domain_translate, domain_translate_linear, Double.div]
  · simp [domain_translate, domain_translate_categorical, fill_cache, Cache.index,
      List.lookup, Double.div, Double.add]

/-- C8, as the code has it. On a LINEAR domain with `max == min` (bounds that
are unset count as 0), or a CATEGORICAL domain with zero categories,
`domain_translate` does not fail: it returns one value per value of the
series, each of them non-finite (NaN or an infinity). -/
theorem domain_translate_degenerate (value_to_float : Value → ℚ)
    (d : DomainConfig) (s : Series)
    (h : (d.kind = DomainKind.LINEAR ∧ d.max.getD 0 = d.min.getD 0)
      ∨ (d.kind = DomainKind.CATEGORICAL ∧ d.categories = [])) :
    domain_translate value_to_float d s = s.map (fun _ => Double.nonfinite) := by
  rcases h with ⟨hk, he⟩ | ⟨hk, he⟩
  · simp only [domain_translate, hk, domain_translate_linear_eq_map, he, sub_self, Double.div,
      if_true]
    cases d.inverted <;> simp [Double.sub]
  · simp only [domain_translate, hk, domain_translate_categorical_eq_map, he, List.length_nil,
      Nat.cast_zero, Double.div, if_true, Double.add]
    cases d.inverted <;> simp [Double.sub]

/-- Witness of C8 as amended: the unfit default domain and the series
`["1", "2"]`. -/
theorem domain_translate_degenerate_witness :
    ((({ } : DomainConfig).kind = DomainKind.LINEAR
          ∧ ({ } : DomainConfig).max.getD 0 = ({ } : DomainConfig).min.getD 0)
        ∨ (({ } : DomainConfig).kind = DomainKind.CATEGORICAL
          ∧ ({ } : DomainConfig).categories = []))
      ∧ domain_translate digits_to_float { } ["1", "2"]
        = ["1", "2"].map (fun _ => Double.nonfinite) :=
  ⟨Or.inl ⟨rfl, rfl⟩,
    domain_translate_degenerate digits_to_float { } ["1", "2"] (Or.inl ⟨rfl, rfl⟩)⟩

/-- C9 fails as stated: with categories `["a", "b"]` the label `"z"`, which
is not a category, is translated to 0.25, the slot position that the
category `"a"` gets; no error is raised. -/
theorem domain_translate_unknown_label_counterexample :
    "z" ∉ ({ kind := DomainKind.CATEGORICAL, categories := ["a", "b"] }
        : DomainConfig).categories
      ∧ domain_translate digits_to_float
          { kind := DomainKind.CATEGORICAL, categories := ["a", "b"] } ["z"]
        = [Double.finite (1 / 4)]
      ∧ domain_translate digits_to_float
          { kind := DomainKind.CATEGORICAL, categories := ["a", "b"] } ["a"]
        = [Double.finite (1 / 4)] := by
  refine ⟨by decide, ?_, ?_⟩
  · simp only [domain_translate, domain_translate_categorical_eq_map]
    simp [Double.div, Double.add]
    norm_num
  · simp only [domain_translate, domain_translate_categorical_eq_map]
    simp [Double.div, Double.add]
    norm_num

/-- C9, as the code has it. On a CATEGORICAL domain with `N >= 1` categories,
`domain_translate` gives a label of the series that is not in `categories` the
position of slot 0, `(0 + 0.5) / N`, and 1 minus that when the domain is
inverted: `operator[]` reads the absent key as index 0. -/
theorem domain_translate_unknown_label (value_to_float : Value → ℚ)
    (d : DomainConfig) (s : Series)
    (hkind : d.kind = DomainKind.CATEGORICAL) (hcats : d.categories ≠ [])
    (j : Nat) (v : Value) (hj : s[j]? = some v) (hv : v ∉ d.categories) :
    (domain_translate value_to_float d s)[j]?
      = some (Double.finite
          (if d.inverted then 1 - ((0 : ℚ) + 1 / 2) / (d.categories.length : ℚ)
            else ((0 : ℚ) + 1 / 2) / (d.categories.length : ℚ))) := by
  have hz : (d.categories.length : ℚ) ≠ 0 := by
    have : 0 < d.categories.length := List.length_pos.mpr hcats
    exact_mod_cast this.ne'
  simp only [domain_translate, hkind, domain_translate_categorical_eq_map,
    List.getElem?_map, hj, Option.map_some', hv, if_false, Double.div, if_neg hz, Double.add]
  cases d.inverted <;> simp [Double.sub]

/-- Witness of C9 as amended: categories `["a", "b"]`, inverted, and the
series `["b", "z"]`, whose entry 1 is not a category. -/
theorem domain_translate_unknown_label_witness :
    (({ kind := DomainKind.CATEGORICAL, inverted := true, categories := ["a", "b"] }
          : DomainConfig).categories ≠ []
        ∧ ["b", "z"][1]? = some "z"
        ∧ "z" ∉ ({ kind := DomainKind.CATEGORICAL, inverted := true, categories := ["a", "b"] }
          : DomainConfig).categories)
      ∧ (domain_translate digits_to_float
          { kind := DomainKind.CATEGORICAL, inverted := true, categories := ["a", "b"] }
          ["b", "z"])[1]?
        = some (Double.finite
          (if ({ kind := DomainKind.CATEGORICAL, inverted := true, categories := ["a", "b"] }
              : DomainConfig).inverted
            then 1 - ((0 : ℚ) + 1 / 2)
              / (({ kind := DomainKind.CATEGORICAL, inverted := true, categories := ["a", "b"] }
                  : DomainConfig).categories.length : ℚ)
            else ((0 : ℚ) + 1 / 2)
              / (({ kind := DomainKind.CATEGORICAL, inverted := true, categories := ["a", "b"] }
                  : DomainConfig).categories.length : ℚ))) :=
  ⟨⟨by decide, rfl, by decide⟩,
    domain_translate_unknown_label digits_to_float
      { kind := DomainKind.CATEGORICAL, inverted := true, categories := ["a", "b"] }
      ["b", "z"] rfl (by decide) 1 "z" rfl (by decide)⟩

/-! ## Configuration -/

/-- C10. `confgure_domain_kind` returns OK with `kind` set to LINEAR exactly
when the property is the value `"linear"`, returns OK with `kind` set to
CATEGORICAL exactly when the property is the value `"categorical"`, and for
every other property returns ERROR_INVALID_ARGUMENT and leaves `kind` as it
was. A property is taken to be at most one of the two values. -/
theorem confgure_domain_kind_spec {Property : Type} (is_value : Property → String → Bool)
    (prop : Property) (kind : DomainKind)
    (hexcl : is_value prop "linear" = true → is_value prop "categorical" = false) :
    (confgure_domain_kind is_value prop kind = (ReturnCode.OK, DomainKind.LINEAR)
        ↔ is_value prop "linear" = true)
      ∧ (confgure_domain_kind is_value prop kind = (ReturnCode.OK, DomainKind.CATEGORICAL)
        ↔ is_value prop "categorical" = true)
      ∧ (is_value prop "linear" = false → is_value prop "categorical" = false →
        confgure_domain_kind is_value prop kind = (ReturnCode.ERROR_INVALID_ARGUMENT, kind)) := by
  unfold confgure_domain_kind
  cases hl : is_value prop "linear" <;> cases hc : is_value prop "categorical" <;>
    simp_all

/-- Witness of C10: properties that are plain strings, and the property
`"categorical"` on a domain of kind LINEAR. -/
theorem confgure_domain_kind_spec_witness :
    (string_is_value "categorical" "linear" = true →
        string_is_value "categorical" "categorical" = false)
      ∧ ((confgure_domain_kind string_is_value "categorical" DomainKind.LINEAR
            = (ReturnCode.OK, DomainKind.LINEAR)
          ↔ string_is_value "categorical" "linear" = true)
        ∧ (confgure_domain_kind string_is_value "categorical" DomainKind.LINEAR
            = (ReturnCode.OK, DomainKind.CATEGORICAL)
          ↔ string_is_value "categorical" "categorical" = true)
        ∧ (string_is_value "categorical" "linear" = false →
          string_is_value "categorical" "categorical" = false →
          confgure_domain_kind string_is_value "categorical" DomainKind.LINEAR
            = (ReturnCode.ERROR_INVALID_ARGUMENT, DomainKind.LINEAR))) :=
  ⟨by decide,
    confgure_domain_kind_spec string_is_value "categorical" DomainKind.LINEAR (by decide)⟩

/-! ## The frame of a linear fit -/

/-- The loop body changes nothing when neither bound is fitted. -/
theorem fit_step_id (dom : DomainConfig) (d : ℚ) :
    domain_fit_linear_step false false dom d = dom := by
  simp [domain_fit_linear_step]

/-- The loop changes nothing when neither bound is fitted. -/
theorem fit_loop_id (data : List ℚ) (dom : DomainConfig) :
    data.foldl (domain_fit_linear_step false false) dom = dom := by
  induction data generalizing dom with
  | nil => rfl
  | cons d ds ih => simp [List.foldl_cons, fit_step_id, ih]

/-- C19. Partial auto-fit frame. On a LINEAR domain, for every series and
either value of `snap_zero`, `domain_fit` leaves a bound that was set before
the call unchanged, and leaves `kind`, `inverted`, `padding` and `categories`
unchanged; when both bounds were set the domain is unchanged. -/
theorem domain_fit_linear_frame (series_to_float : Series → List ℚ)
    (data : Series) (d : DomainConfig) (snap_zero : Bool)
    (hkind : d.kind = DomainKind.LINEAR) :
    (∀ lo, d.min = some lo → (domain_fit series_to_float data d snap_zero).min = some lo)
      ∧ (∀ hi, d.max = some hi → (domain_fit series_to_float data d snap_zero).max = some hi)
      ∧ (domain_fit series_to_float data d snap_zero).kind = d.kind
      ∧ (domain_fit series_to_float data d snap_zero).inverted = d.inverted
      ∧ (domain_fit series_to_float data d snap_zero).padding = d.padding
      ∧ (domain_fit series_to_float data d snap_zero).categories = d.categories
      ∧ (d.min.isSome = true → d.max.isSome = true →
        domain_fit series_to_float data d snap_zero = d) := by
  obtain ⟨f1, f2, f3, f4⟩ :=
    fit_loop_frame d.min.isNone d.max.isNone (series_to_float data) d
  have e : domain_fit series_to_float data d snap_zero
      = domain_fit_linear series_to_float data d snap_zero := by
    unfold domain_fit
    rw [hkind]
  rw [e]
  refine ⟨?_, ?_, ?_, ?_, ?_, ?_, ?_⟩
  · intro lo hlo
    have hk := fit_loop_min_keep d.max.isNone (series_to_float data) d
    simp only [domain_fit_linear, hlo, Option.isNone_some, Bool.false_eq_true, if_false] at hk ⊢
    split_ifs <;> simp [hk]
  · intro hi hhi
    have hk := fit_loop_max_keep d.min.isNone (series_to_float data) d
    simp only [domain_fit_linear, hhi, Option.isNone_some, Bool.false_eq_true, if_false] at hk ⊢
    split_ifs <;> simp [hk]
  · simp only [domain_fit_linear]
    split_ifs <;> simp [f1]
  · simp only [domain_fit_linear]
    split_ifs <;> simp [f2]
  · simp only [domain_fit_linear]
    split_ifs <;> simp [f3]
  · simp only [domain_fit_linear]
    split_ifs <;> simp [f4]
  · intro hmin hmax
    have h1 : d.min.isNone = false := by
      cases hm : d.min <;> simp_all
    have h2 : d.max.isNone = false := by
      cases hm : d.max <;> simp_all
    simp [domain_fit_linear, h1, h2, fit_loop_id]

/-- Witness of C19: the LINEAR domain with `min` preset to 5 and `max`
unset, fitted to the series `["1", "7"]`. -/
theorem domain_fit_linear_frame_witness :
    (domain_fit digits_series_to_float ["1", "7"] { min := some 5, padding := 1 / 2 } true).min
      = some 5 :=
  (domain_fit_linear_frame digits_series_to_float ["1", "7"]
    { min := some 5, padding := 1 / 2 } true rfl).1 5 rfl

/-! ## The no-duplicates invariant of a categorical fit -/

/-- C21. No-duplicates invariant: on a CATEGORICAL domain whose `categories`
contain no duplicates, for every series (which may repeat labels and may
repeat existing categories), the `categories` after `domain_fit` contain no
duplicates. -/
theorem domain_fit_categories_nodup (series_to_float : Series → List ℚ)
    (data : Series) (d : DomainConfig) (snap_zero : Bool)
    (hkind : d.kind = DomainKind.CATEGORICAL) (hnodup : d.categories.Nodup) :
    (domain_fit series_to_float data d snap_zero).categories.Nodup := by
  obtain ⟨L, e, hL, hmem, _⟩ := domain_fit_categorical_spec data d
  have e1 : (domain_fit series_to_float data d snap_zero).categories = d.categories ++ L := by
    unfold domain_fit
    simp only [hkind, e]
  rw [e1]
  refine List.Nodup.append hnodup hL ?_
  rw [List.disjoint_right]
  intro x hx
  exact ((hmem x).mp hx).2

/-- Witness of C21: categories `["a", "b"]` fitted to the series
`["b", "c", "a", "c", "d"]`, which repeats a label and existing categories. -/
theorem domain_fit_categories_nodup_witness :
    ({ kind := DomainKind.CATEGORICAL, categories := ["a", "b"] }
        : DomainConfig).categories.Nodup
      ∧ (domain_fit digits_series_to_float ["b", "c", "a", "c", "d"]
          { kind := DomainKind.CATEGORICAL, categories := ["a", "b"] } false).categories.Nodup :=
  ⟨by decide,
    domain_fit_categories_nodup digits_series_to_float ["b", "c", "a", "c", "d"]
      { kind := DomainKind.CATEGORICAL, categories := ["a", "b"] } false rfl (by decide)⟩

/-! ## The binary64 reading: range of the translation -/

namespace binary64

/-- The overflow threshold is above 1. -/
theorem one_lt_overflow_threshold : (1 : ℚ) < overflow_threshold := by
  unfold overflow_threshold
  norm_num

/-- A real result of magnitude below the threshold stays as it is. -/
theorem ofRat_finite (q : ℚ) (hlo : -overflow_threshold < q) (hhi : q < overflow_threshold) :
    F64.ofRat q = F64.finite q := by
  unfold F64.ofRat
  rw [if_neg (not_le.mpr hhi), if_neg (not_le.mpr hlo)]

/-- A real result between 0 and 1 stays as it is. -/
theorem ofRat_unit (q : ℚ) (h0 : 0 ≤ q) (h1 : q ≤ 1) : F64.ofRat q = F64.finite q := by
  have hT := one_lt_overflow_threshold
  exact ofRat_finite q (by linarith) (by linarith)

/-- The loop of `domain_translate_linear` appends to what is already mapped. -/
theorem f64_translate_linear_loop (f : Value → F64) (series : Series) (acc : List F64) :
    series.foldl (fun mapped v => mapped ++ [f v]) acc = acc ++ series.map f := by
  induction series generalizing acc with
  | nil => simp
  | cons v vs ih => simp [ih]

/-- The linear translation maps each value on its own. -/
theorem f64_translate_linear_eq_map (value_to_float : Value → F64)
    (domain : DomainConfig) (series : Series) :
    domain_translate_linear value_to_float domain series
      = series.map (fun v =>
          let vt := F64.div
            (F64.sub (value_to_float v) (domain.min.getD (F64.finite 0)))
            (F64.sub (domain.max.getD (F64.finite 0)) (domain.min.getD (F64.finite 0)))
          if domain.inverted then F64.sub (F64.finite 1) vt else vt) := by
  unfold domain_translate_linear
  simp only []
  rw [f64_translate_linear_loop]
  simp

/-- The second loop of `domain_translate_categorical` maps each value on its
own; the entries that `operator[]` adds do not change what is read. -/
theorem f64_translate_categorical_loop (g : ℚ → F64) (series : Series)
    (c : Cache) (acc : List F64) :
    (series.foldl
      (fun (st : Cache × List F64) v => ((st.1.index v).2, st.2 ++ [g (st.1.index v).1]))
      (c, acc)).2
      = acc ++ series.map (fun v => g ((List.lookup v c).getD 0)) := by
  induction series generalizing c acc with
  | nil => simp
  | cons v vs ih =>
    obtain ⟨h1, h2⟩ := index_spec c v
    simp only [List.foldl_cons, ih, List.map_cons, h1, h2, List.append_assoc,
      List.singleton_append]

/-- The categorical translation maps each value on its own: a value that is a
category is read as the index of its first occurrence, any other value as 0. -/
theorem f64_translate_categorical_eq_map (domain : DomainConfig) (series : Series) :
    domain_translate_categorical domain series
      = series.map (fun v =>
          let vt := F64.add
            (F64.div
              (F64.finite
                (if v ∈ domain.categories then (domain.categories.indexOf v : ℚ) else 0))
              (F64.finite (domain.categories.length : ℚ)))
            (F64.div (F64.finite (1 / 2)) (F64.finite (domain.categories.length : ℚ)))
          if domain.inverted then F64.sub (F64.finite 1) vt else vt) := by
  unfold domain_translate_categorical
  simp only []
  rw [f64_translate_categorical_loop
    (fun q =>
      if domain.inverted then
        F64.sub (F64.finite 1)
          (F64.add (F64.div (F64.finite q) (F64.finite (domain.categories.length : ℚ)))
            (F64.div (F64.finite (1 / 2)) (F64.finite (domain.categories.length : ℚ))))
      else
        F64.add (F64.div (F64.finite q) (F64.finite (domain.categories.length : ℚ)))
          (F64.div (F64.finite (1 / 2)) (F64.finite (domain.categories.length : ℚ))))]
  simp only [List.nil_append, lookup_fill_cache, List.lookup, Option.orElse, Nat.zero_add]
  apply List.map_congr_left
  intro v _
  by_cases hv : v ∈ domain.categories <;> simp [hv]

/-- One minus a number between 0 and 1, as a `double`. -/
theorem sub_one_unit (t : ℚ) (h0 : 0 ≤ t) (h1 : t ≤ 1) :
    F64.sub (F64.finite 1) (F64.finite t) = F64.finite (1 - t) := by
  simp only [F64.sub, F64.neg, F64.add]
  rw [← sub_eq_add_neg]
  exact ofRat_unit _ (by linarith) (by linarith)

/-- C16 fails as stated: the width `max - min` of a LINEAR domain can
overflow. With `min = -2^1023`, `max = 2^1023` (so `min < max`) and the value
`2^1023`, which lies in `[min, max]`, both `value - min` and `max - min` are
`2^1024`, which overflows to `+Inf`, and `Inf / Inf` is NaN: the output is
not a number in [0, 1]. -/
theorem domain_translate_range_counterexample :
    (-(2 : ℚ) ^ 1023 < 2 ^ 1023
        ∧ power_to_float "1023" = F64.finite (2 ^ 1023)
        ∧ -(2 : ℚ) ^ 1023 ≤ 2 ^ 1023 ∧ (2 : ℚ) ^ 1023 ≤ 2 ^ 1023)
      ∧ domain_translate power_to_float
          { min := some (F64.finite (-(2 ^ 1023))), max := some (F64.finite (2 ^ 1023)) }
          ["1023"]
        = [F64.nan] := by
  refine ⟨⟨by norm_num, by simp [power_to_float], by norm_num, le_refl _⟩, ?_⟩
  simp [domain_translate, domain_translate_linear, power_to_float, F64.sub, F64.neg, F64.add,
    F64.ofRat, overflow_threshold, F64.div]
  norm_num

/-- C16, as the code has it. Every output of `domain_translate` is a number
in [0, 1], the position that the specification gives the value, and the
output has one entry per series value, in series order. This holds on a
LINEAR domain with finite bounds `min < max` whose width `max - min` does not
overflow, for a series of finite values in `[min, max]`, and on a CATEGORICAL
domain with at least one category for a series whose values all occur in
`categories`, inverted or not. -/
theorem domain_translate_range_no_overflow (value_to_float : Value → F64)
    (d : DomainConfig) (s : Series)
    (h : (d.kind = DomainKind.LINEAR
        ∧ ∃ lo hi : ℚ, d.min.getD (F64.finite 0) = F64.finite lo
          ∧ d.max.getD (F64.finite 0) = F64.finite hi
          ∧ lo < hi ∧ hi - lo < overflow_threshold
          ∧ ∀ v ∈ s, ∃ q : ℚ, value_to_float v = F64.finite q ∧ lo ≤ q ∧ q ≤ hi)
      ∨ (d.kind = DomainKind.CATEGORICAL ∧ d.categories ≠ []
        ∧ ∀ v ∈ s, v ∈ d.categories)) :
    domain_translate value_to_float d s
        = s.map (fun v => F64.finite (unit_position value_to_float d v))
      ∧ (domain_translate value_to_float d s).length = s.length
      ∧ ∀ v ∈ s, 0 ≤ unit_position value_to_float d v
          ∧ unit_position value_to_float d v ≤ 1 := by
  rcases h with ⟨hk, lo, hi, hlo, hhi, hlt, hw, hs⟩ | ⟨hk, hne, hs⟩
  · have hpos : 0 < hi - lo := sub_pos.mpr hlt
    have hz : hi - lo ≠ 0 := ne_of_gt hpos
    have hT := one_lt_overflow_threshold
    have hbound : ∀ q : ℚ, lo ≤ q → q ≤ hi →
        0 ≤ (q - lo) / (hi - lo) ∧ (q - lo) / (hi - lo) ≤ 1 := by
      intro q h1 h2
      constructor
      · exact div_nonneg (sub_nonneg.mpr h1) (le_of_lt hpos)
      · rw [div_le_one hpos]
        linarith
    have hwidth : F64.sub (F64.finite hi) (F64.finite lo) = F64.finite (hi - lo) := by
      simp only [F64.sub, F64.neg, F64.add]
      rw [← sub_eq_add_neg]
      exact ofRat_finite _ (by linarith) hw
    have hentry : ∀ v ∈ s,
        (let vt := F64.div
            (F64.sub (value_to_float v) (d.min.getD (F64.finite 0)))
            (F64.sub (d.max.getD (F64.finite 0)) (d.min.getD (F64.finite 0)))
          if d.inverted then F64.sub (F64.finite 1) vt else vt)
          = F64.finite (unit_position value_to_float d v)
        ∧ 0 ≤ unit_position value_to_float d v ∧ unit_position value_to_float d v ≤ 1 := by
      intro v hv
      obtain ⟨q, hq, h1, h2⟩ := hs v hv
      obtain ⟨b0, b1⟩ := hbound q h1 h2
      have hnum : F64.sub (F64.finite q) (F64.finite lo) = F64.finite (q - lo) := by
        simp only [F64.sub, F64.neg, F64.add]
        rw [← sub_eq_add_neg]
        exact ofRat_finite _ (by linarith) (by linarith)
      have hdiv : F64.div (F64.finite (q - lo)) (F64.finite (hi - lo))
          = F64.finite ((q - lo) / (hi - lo)) := by
        simp only [F64.div, if_neg hz]
        exact ofRat_unit _ b0 b1
      simp only [unit_position, hk, hq, hlo, hhi, F64.toRat, hnum, hwidth, hdiv]
      cases d.inverted
      · simp only [Bool.false_eq_true, if_false]
        exact ⟨trivial, b0, b1⟩
      · simp only [if_true]
        exact ⟨sub_one_unit _ b0 b1, by linarith, by linarith⟩
    refine ⟨?_, ?_, fun v hv => (hentry v hv).2⟩
    · simp only [domain_translate, hk, f64_translate_linear_eq_map]
      apply List.map_congr_left
      intro v hv
      exact (hentry v hv).1
    · simp [domain_translate, hk, f64_translate_linear_eq_map]
  · have hlen : 0 < d.categories.length := List.length_pos.mpr hne
    have hpos : (0 : ℚ) < (d.categories.length : ℚ) := by exact_mod_cast hlen
    have hz : (d.categories.length : ℚ) ≠ 0 := ne_of_gt hpos
    have hentry : ∀ v ∈ s,
        (let vt := F64.add
            (F64.div
              (F64.finite (if v ∈ d.categories then (d.categories.indexOf v : ℚ) else 0))
              (F64.finite (d.categories.length : ℚ)))
            (F64.div (F64.finite (1 / 2)) (F64.finite (d.categories.length : ℚ)))
          if d.inverted then F64.sub (F64.finite 1) vt else vt)
          = F64.finite (unit_position value_to_float d v)
        ∧ 0 ≤ unit_position value_to_float d v ∧ unit_position value_to_float d v ≤ 1 := by
      intro v hv
      have hi : d.categories.indexOf v < d.categories.length :=
        List.indexOf_lt_length.mpr (hs v hv)
      have hi' : (d.categories.indexOf v : ℚ) + 1 ≤ (d.categories.length : ℚ) := by
        exact_mod_cast hi
      have hi0 : (0 : ℚ) ≤ (d.categories.indexOf v : ℚ) := Nat.cast_nonneg _
      have a0 : 0 ≤ (d.categories.indexOf v : ℚ) / (d.categories.length : ℚ) :=
        div_nonneg hi0 (le_of_lt hpos)
      have a1 : (d.categories.indexOf v : ℚ) / (d.categories.length : ℚ) ≤ 1 := by
        rw [div_le_one hpos]
        linarith
      have c0 : 0 ≤ (1 / 2 : ℚ) / (d.categories.length : ℚ) :=
        div_nonneg (by norm_num) (le_of_lt hpos)
      have c1 : (1 / 2 : ℚ) / (d.categories.length : ℚ) ≤ 1 := by
        rw [div_le_one hpos]
        linarith
      have hsum : (d.categories.indexOf v : ℚ) / (d.categories.length : ℚ)
          + (1 / 2) / (d.categories.length : ℚ)
          = ((d.categories.indexOf v : ℚ) + 1 / 2) / (d.categories.length : ℚ) := by
        rw [add_div]
      have b0 : 0 ≤ ((d.categories.indexOf v : ℚ) + 1 / 2) / (d.categories.length : ℚ) :=
        div_nonneg (by linarith) (le_of_lt hpos)
      have b1 : ((d.categories.indexOf v : ℚ) + 1 / 2) / (d.categories.length : ℚ) ≤ 1 := by
        rw [div_le_one hpos]
        linarith
      have hd1 : F64.div (F64.finite (d.categories.indexOf v : ℚ))
          (F64.finite (d.categories.length : ℚ))
          = F64.finite ((d.categories.indexOf v : ℚ) / (d.categories.length : ℚ)) := by
        simp only [F64.div, if_neg hz]
        exact ofRat_unit _ a0 a1
      have hd2 : F64.div (F64.finite (1 / 2)) (F64.finite (d.categories.length : ℚ))
          = F64.finite ((1 / 2 : ℚ) / (d.categories.length : ℚ)) := by
        simp only [F64.div, if_neg hz]
        exact ofRat_unit _ c0 c1
      have hadd : F64.add
          (F64.finite ((d.categories.indexOf v : ℚ) / (d.categories.length : ℚ)))
          (F64.finite ((1 / 2 : ℚ) / (d.categories.length : ℚ)))
          = F64.finite (((d.categories.indexOf v : ℚ) + 1 / 2)
              / (d.categories.length : ℚ)) := by
        simp only [F64.add]
        rw [hsum]
        exact ofRat_unit _ b0 b1
      simp only [unit_position, hk, hs v hv, if_true, hd1, hd2, hadd]
      cases d.inverted
      · simp only [Bool.false_eq_true, if_false]
        exact ⟨trivial, b0, b1⟩
      · simp only [if_true]
        exact ⟨sub_one_unit _ b0 b1, by linarith, by linarith⟩
    refine ⟨?_, ?_, fun v hv => (hentry v hv).2⟩
    · simp only [domain_translate, hk, f64_translate_categorical_eq_map]
      apply List.map_congr_left
      intro v hv
      exact (hentry v hv).1
    · simp [domain_translate, hk, f64_translate_categorical_eq_map]

/-- Witness of C16 as amended: the inverted LINEAR domain with bounds 0 and
10 and the series `["0", "1", "3"]`, read as the values 1, 2 and 8. -/
theorem domain_translate_range_no_overflow_witness :
    domain_translate power_to_float
        { min := some (F64.finite 0), max := some (F64.finite 10), inverted := true }
        ["0", "1", "3"]
        = ["0", "1", "3"].map (fun v => F64.finite (unit_position power_to_float
            { min := some (F64.finite 0), max := some (F64.finite 10), inverted := true } v))
      ∧ (domain_translate power_to_float
          { min := some (F64.finite 0), max := some (F64.finite 10), inverted := true }
          ["0", "1", "3"]).length = ["0", "1", "3"].length
      ∧ ∀ v ∈ ["0", "1", "3"],
          0 ≤ unit_position power_to_float
            { min := some (F64.finite 0), max := some (F64.finite 10), inverted := true } v
          ∧ unit_position power_to_float
            { min := some (F64.finite 0), max := some (F64.finite 10), inverted := true } v
            ≤ 1 :=
  domain_translate_range_no_overflow power_to_float
    { min := some (F64.finite 0), max := some (F64.finite 10), inverted := true }
    ["0", "1", "3"]
    (Or.inl ⟨rfl, 0, 10, rfl, rfl, by norm_num,
      by
        have := one_lt_overflow_threshold
        unfold overflow_threshold at *
        norm_num,
      by
        intro v hv
        simp only [List.mem_cons, List.mem_singleton, List.not_mem_nil, or_false] at hv
        rcases hv with rfl | rfl | rfl
        · exact ⟨1, by simp [power_to_float], by norm_num, by norm_num⟩
        · exact ⟨2, by simp [power_to_float], by norm_num, by norm_num⟩
        · exact ⟨8, by simp [power_to_float]; norm_num, by norm_num, by norm_num⟩⟩)

/-! ## The binary64 reading: order of the fitted bounds -/

end binary64

end plotfx

namespace fviz

/-! ## Properties of the layout: running the child elements -/

/-- Issuing nothing leaves the surface as it is. -/
theorem issue_nil (layer : Layer) : layer.issue [] = layer := by
  simp [Layer.issue]

/-- Issuing in two steps is issuing the whole. -/
theorem issue_issue (layer : Layer) (a b : List Op) :
    (layer.issue a).issue b = layer.issue (a ++ b) := by
  simp [Layer.issue]

/-- The loop over a list of elements runs their calls in order. -/
theorem draw_elements_eq_run (box : Rectangle) (es : List Element) (layer : Layer) :
    draw_elements box es layer = run_calls (es.map (fun e => (e, box))) layer := by
  induction es generalizing layer with
  | nil => rfl
  | cons e es ih =>
    simp only [draw_elements, List.map_cons, run_calls, call_rc, call_op, Layer.issue, ih]

/-- Running a concatenation: the second part runs when the first did not fail. -/
theorem run_calls_append (a b : List (Element × Rectangle)) (layer : Layer) :
    run_calls (a ++ b) layer
      = if (run_calls a layer).1.failed then run_calls a layer
        else run_calls b (run_calls a layer).2 := by
  induction a generalizing layer with
  | nil => simp [run_calls, ReturnCode.failed]
  | cons c cs ih =>
    simp only [List.cons_append, run_calls]
    by_cases h : (call_rc c layer).failed = true
    · simp [h]
    · simp only [h, if_false, Bool.false_eq_true]
      exact ih _

/-- The loop over the edges runs the calls of the edges in order. -/
theorem draw_margin_elements_eq_run (margin_boxes : Fin 4 → Rectangle)
    (margin_elements : Fin 4 → List Element) (is : List (Fin 4)) (layer : Layer) :
    draw_margin_elements margin_boxes margin_elements is layer
      = run_calls
          (is.flatMap (fun i => (margin_elements i).map (fun e => (e, margin_boxes i))))
          layer := by
  induction is generalizing layer with
  | nil => rfl
  | cons i is ih =>
    simp only [draw_margin_elements, List.flatMap_cons, run_calls_append,
      draw_elements_eq_run, ih]

/-- A run without a failure returns OK and has issued every call. -/
theorem run_calls_ok (cs : List (Element × Rectangle)) (layer : Layer)
    (h : (run_calls cs layer).1.failed = false) :
    run_calls cs layer = (ReturnCode.OK, layer.issue (cs.map call_op)) := by
  induction cs generalizing layer with
  | nil => simp [run_calls, issue_nil]
  | cons c cs ih =>
    simp only [run_calls] at h ⊢
    by_cases hc : (call_rc c layer).failed = true
    · simp [hc] at h
    · simp only [hc, if_false, Bool.false_eq_true] at h ⊢
      rw [ih _ h, issue_issue]
      simp

/-- A run has always issued a prefix of its calls and nothing else. -/
theorem run_calls_prefix (cs : List (Element × Rectangle)) (layer : Layer) :
    ∃ k, k ≤ cs.length
      ∧ (run_calls cs layer).2 = layer.issue ((cs.take k).map call_op) := by
  induction cs generalizing layer with
  | nil => exact ⟨0, le_refl _, by simp [run_calls, issue_nil]⟩
  | cons c cs ih =>
    simp only [run_calls]
    by_cases hc : (call_rc c layer).failed = true
    · exact ⟨1, by simp, by simp [hc]⟩
    · obtain ⟨k, hk, e⟩ := ih (layer.issue [call_op c])
      refine ⟨k + 1, by simpa using hk, ?_⟩
      simp only [hc, if_false, Bool.false_eq_true, e, issue_issue]
      simp

/-- A run whose call number `k` is the first that fails returns the code of
that call and has issued the calls up to and including it. -/
theorem run_calls_first_failure (cs : List (Element × Rectangle)) (layer : Layer)
    (k : Nat) (c : Element × Rectangle) (hk : cs[k]? = some c)
    (hbefore : ∀ (j : Nat) (c' : Element × Rectangle), j < k → cs[j]? = some c' →
      (call_rc c' (layer.issue ((cs.take j).map call_op))).failed = false)
    (hfail : (call_rc c (layer.issue ((cs.take k).map call_op))).failed = true) :
    run_calls cs layer
      = (call_rc c (layer.issue ((cs.take k).map call_op)),
          layer.issue ((cs.take (k + 1)).map call_op)) := by
  induction cs generalizing layer k with
  | nil => simp at hk
  | cons c0 cs ih =>
    cases k with
    | zero =>
      simp only [List.getElem?_cons_zero, Option.some.injEq] at hk
      subst hk
      simp only [List.take_zero, List.map_nil, issue_nil] at hfail
      simp [run_calls, hfail, issue_nil]
    | succ k =>
      have h0 : (call_rc c0 layer).failed = false := by
        have := hbefore 0 c0 (Nat.succ_pos k) (by simp)
        simpa [issue_nil] using this
      simp only [List.getElem?_cons_succ] at hk
      have hb : ∀ (j : Nat) (c' : Element × Rectangle), j < k → cs[j]? = some c' →
          (call_rc c' ((layer.issue [call_op c0]).issue ((cs.take j).map call_op))).failed
            = false := by
        intro j c' hj hc'
        have := hbefore (j + 1) c' (Nat.succ_lt_succ hj) (by simpa using hc')
        simpa [issue_issue] using this
      have hf : (call_rc c ((layer.issue [call_op c0]).issue ((cs.take k).map call_op))).failed
          = true := by
        simpa [issue_issue] using hfail
      have := ih (layer.issue [call_op c0]) k hk hb hf
      simp only [run_calls, h0, if_false, Bool.false_eq_true, this, issue_issue]
      simp

/-! ## Properties of the layout: the phases of `draw` -/

/-- A return code passes the test `!rc` exactly when it is not OK. -/
theorem failed_eq_false_iff (rc : ReturnCode) : rc.failed = false ↔ rc = ReturnCode.OK := by
  cases rc <;> simp [ReturnCode.failed]

/-- The background block issues the fill of the specification. -/
theorem draw_background_eq (config : PlotConfig) (box : Rectangle) (layer : Layer) :
    draw_background config box layer = layer.issue (background_ops config box) := by
  unfold draw_background background_ops
  cases config.background <;> simp [fillRectangle, Layer.issue]

/-- The border blocks issue the strokes of the specification, edge by edge. -/
theorem draw_borders_eq (config : PlotConfig) (box : Rectangle) (layer : Layer) :
    draw_borders config box layer
      = layer.issue (border_ops config box 0 ++ border_ops config box 1
          ++ border_ops config box 2 ++ border_ops config box 3) := by
  unfold draw_borders border_ops
  simp only [edge_corners]
  split_ifs <;> simp [strokeLine, Layer.issue]

/-- When a size hint has failed, `draw` returns its code and the surface as
it was. -/
theorem draw_of_padding_error (convert_unit_typographic : ℚ → Measure → Measure → Measure)
    (config : PlotConfig) (layout : LayoutInfo) (layer : Layer) (rc : ReturnCode)
    (h : draw_padding convert_unit_typographic config layout layer = Except.error rc) :
    draw convert_unit_typographic config layout layer = (rc, layer) := by
  unfold draw
  simp only [h]

/-- When the size hints have given the paddings `padding`, `draw` issues the
background, runs the calls of the draw sequence and, unless one of them
failed, issues the borders. -/
theorem draw_of_padding_ok (convert_unit_typographic : ℚ → Measure → Measure → Measure)
    (config : PlotConfig) (layout : LayoutInfo) (layer : Layer) (padding : Fin 4 → Measure)
    (h : draw_padding convert_unit_typographic config layout layer = Except.ok padding) :
    draw convert_unit_typographic config layout layer
      = if (run_calls
              (draw_sequence config
                (draw_body_box
                  (draw_content_box convert_unit_typographic config layout layer) padding)
                (draw_margin_boxes
                  (draw_content_box convert_unit_typographic config layout layer)
                  (draw_body_box
                    (draw_content_box convert_unit_typographic config layout layer) padding)
                  padding))
              (layer.issue (background_ops config
                (draw_body_box
                  (draw_content_box convert_unit_typographic config layout layer)
                  padding)))).1.failed
        then
          run_calls
            (draw_sequence config
              (draw_body_box
                (draw_content_box convert_unit_typographic config layout layer) padding)
              (draw_margin_boxes
                (draw_content_box convert_unit_typographic config layout layer)
                (draw_body_box
                  (draw_content_box convert_unit_typographic config layout layer) padding)
                padding))
            (layer.issue (background_ops config
              (draw_body_box
                (draw_content_box convert_unit_typographic config layout layer) padding)))
        else
          (ReturnCode.OK,
            (run_calls
              (draw_sequence config
                (draw_body_box
                  (draw_content_box convert_unit_typographic config layout layer) padding)
                (draw_margin_boxes
                  (draw_content_box convert_unit_typographic config layout layer)
                  (draw_body_box
                    (draw_content_box convert_unit_typographic config layout layer) padding)
                  padding))
              (layer.issue (background_ops config
                (draw_body_box
                  (draw_content_box convert_unit_typographic config layout layer)
                  padding)))).2.issue
              (border_ops config
                  (draw_content_box convert_unit_typographic config layout layer) 0
                ++ border_ops config
                  (draw_content_box convert_unit_typographic config layout layer) 1
                ++ border_ops config
                  (draw_content_box convert_unit_typographic config layout layer) 2
                ++ border_ops config
                  (draw_content_box convert_unit_typographic config layout layer) 3)) := by
  unfold draw
  simp only [h, draw_background_eq, draw_borders_eq, draw_elements_eq_run,
    draw_margin_elements_eq_run, draw_sequence, run_calls_append, List.flatMap_cons,
    List.flatMap_nil, List.append_nil, List.append_assoc]
  split_ifs <;> rfl

/-! ## Properties of the layout: the size negotiation -/

/-- The choice `i % 2 ? e_width : e_height` of `draw` is the extent that the
specification names for the edge `i`. -/
theorem hinted_extent_eq (i : Fin 4) (hint : ℚ × ℚ) :
    (if i.val % 2 ≠ 0 then hint.1 else hint.2) = hinted_extent i hint := by
  fin_cases i <;> simp [hinted_extent]

/-- An edge whose size hints have given the padding `q`, from the padding `p`
on: `q` is at least `p` and at least every hinted extent, it is as long as
`p` or as one of the hinted extents, and every size hint of the edge has
returned OK. -/
theorem size_hints_edge_ok (layer : Layer) (content_box : Rectangle) (i : Fin 4)
    (es : List Element) (p q : Measure)
    (h : draw_size_hints_edge layer content_box i es p = Except.ok q) :
    p.value ≤ q.value
      ∧ (∀ e ∈ es, ∀ hint, e.size_hint = some hint →
          (hint layer content_box.w content_box.h).1 = ReturnCode.OK
            ∧ hinted_extent i (hint layer content_box.w content_box.h).2 ≤ q.value)
      ∧ (q.value = p.value ∨ ∃ e ∈ es, ∃ hint, e.size_hint = some hint
          ∧ q.value = hinted_extent i (hint layer content_box.w content_box.h).2) := by
  induction es generalizing p with
  | nil =>
    simp only [draw_size_hints_edge, Except.ok.injEq] at h
    subst h
    exact ⟨le_refl _, fun e he => absurd he (List.not_mem_nil e), Or.inl rfl⟩
  | cons e es ih =>
    cases hs : e.size_hint with
    | none =>
      simp only [draw_size_hints_edge, hs] at h
      obtain ⟨h1, h2, h3⟩ := ih p h
      refine ⟨h1, ?_, ?_⟩
      · intro e' he' hint hh
        rcases List.mem_cons.mp he' with rfl | he'
        · rw [hs] at hh
          cases hh
        · exact h2 e' he' hint hh
      · rcases h3 with h3 | ⟨e', he', hint, hh, hq⟩
        · exact Or.inl h3
        · exact Or.inr ⟨e', List.mem_cons_of_mem _ he', hint, hh, hq⟩
    | some hint0 =>
      simp only [draw_size_hints_edge, hs] at h
      by_cases hf : (hint0 layer content_box.w content_box.h).1.failed = true
      · simp [hf] at h
      · simp only [hf, if_false, Bool.false_eq_true, hinted_extent_eq] at h
        have hok : (hint0 layer content_box.w content_box.h).1 = ReturnCode.OK :=
          (failed_eq_false_iff _).mp (by simpa using hf)
        obtain ⟨h1, h2, h3⟩ := ih _ h
        simp only [from_unit] at h1 h3
        refine ⟨le_trans (le_max_left _ _) h1, ?_, ?_⟩
        · intro e' he' hint hh
          rcases List.mem_cons.mp he' with rfl | he'
          · rw [hs] at hh
            cases hh
            exact ⟨hok, le_trans (le_max_right _ _) h1⟩
          · exact h2 e' he' hint hh
        · rcases h3 with h3 | ⟨e', he', hint, hh, hq⟩
          · rcases max_choice p.value
                (hinted_extent i (hint0 layer content_box.w content_box.h).2) with hm | hm
            · exact Or.inl (h3.trans hm)
            · exact Or.inr ⟨e, List.mem_cons_self _ _, hint0, hs, h3.trans hm⟩
          · exact Or.inr ⟨e', List.mem_cons_of_mem _ he', hint, hh, hq⟩

/-- An edge whose size hints all return OK gives a padding. -/
theorem size_hints_edge_total (layer : Layer) (content_box : Rectangle) (i : Fin 4)
    (es : List Element) (p : Measure)
    (hok : ∀ e ∈ es, ∀ hint, e.size_hint = some hint →
      (hint layer content_box.w content_box.h).1.failed = false) :
    ∃ q, draw_size_hints_edge layer content_box i es p = Except.ok q := by
  induction es generalizing p with
  | nil => exact ⟨p, rfl⟩
  | cons e es ih =>
    have hrest : ∀ e' ∈ es, ∀ hint, e'.size_hint = some hint →
        (hint layer content_box.w content_box.h).1.failed = false :=
      fun e' he' => hok e' (List.mem_cons_of_mem _ he')
    cases hs : e.size_hint with
    | none =>
      simp only [draw_size_hints_edge, hs]
      exact ih p hrest
    | some hint0 =>
      have h0 := hok e (List.mem_cons_self _ _) hint0 hs
      simp only [draw_size_hints_edge, hs, h0, if_false, Bool.false_eq_true]
      exact ih _ hrest

/-- An edge whose element number `k` has the first size hint that fails ends
with the return code of that size hint, whatever the padding was. -/
theorem size_hints_edge_first_failure (layer : Layer) (content_box : Rectangle) (i : Fin 4)
    (es : List Element) (p : Measure) (k : Nat) (e : Element)
    (hint : Layer → ℚ → ℚ → ReturnCode × ℚ × ℚ)
    (hk : es[k]? = some e) (hh : e.size_hint = some hint)
    (hfail : (hint layer content_box.w content_box.h).1.failed = true)
    (hbefore : ∀ (j : Nat) (e' : Element) (hint' : Layer → ℚ → ℚ → ReturnCode × ℚ × ℚ),
      j < k → es[j]? = some e' → e'.size_hint = some hint' →
      (hint' layer content_box.w content_box.h).1.failed = false) :
    draw_size_hints_edge layer content_box i es p
      = Except.error (hint layer content_box.w content_box.h).1 := by
  induction es generalizing p k with
  | nil => simp at hk
  | cons e0 es ih =>
    cases k with
    | zero =>
      simp only [List.getElem?_cons_zero, Option.some.injEq] at hk
      subst hk
      simp [draw_size_hints_edge, hh, hfail]
    | succ k =>
      simp only [List.getElem?_cons_succ] at hk
      have hb : ∀ (j : Nat) (e' : Element) (hint' : Layer → ℚ → ℚ → ReturnCode × ℚ × ℚ),
          j < k → es[j]? = some e' → e'.size_hint = some hint' →
          (hint' layer content_box.w content_box.h).1.failed = false := by
        intro j e' hint' hj he' hh'
        exact hbefore (j + 1) e' hint' (Nat.succ_lt_succ hj) (by simpa using he') hh'
      cases hs : e0.size_hint with
      | none =>
        simp only [draw_size_hints_edge, hs]
        exact ih p k hk hb
      | some hint0 =>
        have h0 := hbefore 0 e0 hint0 (Nat.succ_pos k) (by simp) hs
        simp only [draw_size_hints_edge, hs, h0, if_false, Bool.false_eq_true]
        exact ih _ k hk hb

/-- The edges are negotiated one by one: when the negotiation over the edges
`is`, each listed once, gives `padding`, the padding of a listed edge is what
its own loop gives from the padding it had, and any other padding is as it
was. -/
theorem size_hints_ok (layer : Layer) (content_box : Rectangle)
    (margin_elements : Fin 4 → List Element) (is : List (Fin 4)) (hnd : is.Nodup)
    (init padding : Fin 4 → Measure)
    (h : draw_size_hints layer content_box margin_elements is init = Except.ok padding) :
    (∀ i ∈ is, draw_size_hints_edge layer content_box i (margin_elements i) (init i)
        = Except.ok (padding i))
      ∧ (∀ i, i ∉ is → padding i = init i) := by
  induction is generalizing init with
  | nil =>
    simp only [draw_size_hints, Except.ok.injEq] at h
    subst h
    simp
  | cons i0 is ih =>
    obtain ⟨hni, hnd'⟩ := List.nodup_cons.mp hnd
    simp only [draw_size_hints] at h
    cases he : draw_size_hints_edge layer content_box i0 (margin_elements i0) (init i0) with
    | error rc => simp [he] at h
    | ok p =>
      simp only [he] at h
      obtain ⟨h1, h2⟩ := ih hnd' _ h
      have hp0 : padding i0 = p := by
        rw [h2 i0 hni]
        simp
      refine ⟨?_, ?_⟩
      · intro i hi
        rcases List.mem_cons.mp hi with rfl | hi
        · rw [hp0]
          exact he
        · have hne : i ≠ i0 := fun e => hni (e ▸ hi)
          have := h1 i hi
          rwa [Function.update_noteq hne] at this
      · intro i hi
        have hne : i ≠ i0 := fun e => hi (e ▸ List.mem_cons_self _ _)
        have hi' : i ∉ is := fun e => hi (List.mem_cons_of_mem _ e)
        rw [h2 i hi', Function.update_noteq hne]

/-- The negotiation ends with the return code of the first edge that fails:
when the size hints of the edges `pre` all return OK and the loop of the edge
`i` fails with `rc` whatever the padding, the negotiation over `pre`, `i` and
any further edges fails with `rc`. -/
theorem size_hints_first_failure (layer : Layer) (content_box : Rectangle)
    (margin_elements : Fin 4 → List Element) (pre post : List (Fin 4)) (i : Fin 4)
    (rc : ReturnCode)
    (hpre : ∀ i' ∈ pre, ∀ e ∈ margin_elements i', ∀ hint, e.size_hint = some hint →
      (hint layer content_box.w content_box.h).1.failed = false)
    (hedge : ∀ p, draw_size_hints_edge layer content_box i (margin_elements i) p
      = Except.error rc)
    (init : Fin 4 → Measure) :
    draw_size_hints layer content_box margin_elements (pre ++ i :: post) init
      = Except.error rc := by
  induction pre generalizing init with
  | nil => simp [draw_size_hints, hedge]
  | cons i0 pre ih =>
    obtain ⟨q, hq⟩ := size_hints_edge_total layer content_box i0 (margin_elements i0) (init i0)
      (hpre i0 (List.mem_cons_self _ _))
    simp only [List.cons_append, draw_size_hints, hq]
    exact ih (fun i' hi' => hpre i' (List.mem_cons_of_mem _ hi')) _

/-- A failed size negotiation of an edge ends with a code that is not OK. -/
theorem size_hints_edge_error (layer : Layer) (content_box : Rectangle) (i : Fin 4)
    (es : List Element) (p : Measure) (rc : ReturnCode)
    (h : draw_size_hints_edge layer content_box i es p = Except.error rc) :
    rc.failed = true := by
  induction es generalizing p with
  | nil => simp [draw_size_hints_edge] at h
  | cons e es ih =>
    cases hs : e.size_hint with
    | none =>
      simp only [draw_size_hints_edge, hs] at h
      exact ih p h
    | some hint0 =>
      simp only [draw_size_hints_edge, hs] at h
      by_cases hf : (hint0 layer content_box.w content_box.h).1.failed = true
      · simp only [hf, if_true, Except.error.injEq] at h
        rw [← h]
        exact hf
      · simp only [hf, if_false, Bool.false_eq_true] at h
        exact ih _ h

/-- A failed size negotiation ends with a code that is not OK. -/
theorem size_hints_error (layer : Layer) (content_box : Rectangle)
    (margin_elements : Fin 4 → List Element) (is : List (Fin 4))
    (init : Fin 4 → Measure) (rc : ReturnCode)
    (h : draw_size_hints layer content_box margin_elements is init = Except.error rc) :
    rc.failed = true := by
  induction is generalizing init with
  | nil => simp [draw_size_hints] at h
  | cons i0 is ih =>
    simp only [draw_size_hints] at h
    cases he : draw_size_hints_edge layer content_box i0 (margin_elements i0) (init i0) with
    | error rc0 =>
      simp only [he, Except.error.injEq] at h
      rw [← h]
      exact size_hints_edge_error _ _ _ _ _ _ he
    | ok p =>
      simp only [he] at h
      exact ih _ h

/-- The paddings of any configuration with the margin elements of the
examples. -/
theorem example_padding_ok (convert_unit_typographic : ℚ → Measure → Measure → Measure)
    (config : PlotConfig) (layout : LayoutInfo) (layer : Layer)
    (hme : config.margin_elements = example_margin_elements) :
    draw_padding convert_unit_typographic config layout layer = Except.ok example_padding := by
  simp only [draw_padding, hme, draw_size_hints, draw_size_hints_edge, example_margin_elements,
    example_top, ReturnCode.failed, Measure.zero, from_unit, Bool.false_eq_true, if_false,
    Except.ok.injEq]
  funext i
  fin_cases i <;> simp [example_padding, Function.update, from_unit, Measure.zero]

/-! ## The box model: C11, C17, C18 -/

/-- C17. If a size-hint call fails, `draw` returns the error of that call and
leaves the surface as it was: no fill, no element draw and no stroke has been
issued. The failing call is the one of element `k` of the edge `i`; every
size hint that is asked before it (the earlier edges, and the earlier
elements of the edge `i`) returns OK. -/
theorem draw_size_hint_failure (convert_unit_typographic : ℚ → Measure → Measure → Measure)
    (config : PlotConfig) (layout : LayoutInfo) (layer : Layer)
    (i : Fin 4) (k : Nat) (e : Element) (hint : Layer → ℚ → ℚ → ReturnCode × ℚ × ℚ)
    (hk : (config.margin_elements i)[k]? = some e) (hh : e.size_hint = some hint)
    (hfail : (hint layer
        (draw_content_box convert_unit_typographic config layout layer).w
        (draw_content_box convert_unit_typographic config layout layer).h).1.failed = true)
    (hedges : ∀ i' : Fin 4, i' < i → ∀ e' ∈ config.margin_elements i', ∀ hint',
      e'.size_hint = some hint' →
      (hint' layer
        (draw_content_box convert_unit_typographic config layout layer).w
        (draw_content_box convert_unit_typographic config layout layer).h).1.failed = false)
    (hbefore : ∀ (j : Nat) (e' : Element) (hint' : Layer → ℚ → ℚ → ReturnCode × ℚ × ℚ),
      j < k → (config.margin_elements i)[j]? = some e' → e'.size_hint = some hint' →
      (hint' layer
        (draw_content_box convert_unit_typographic config layout layer).w
        (draw_content_box convert_unit_typographic config layout layer).h).1.failed = false) :
    draw convert_unit_typographic config layout layer
      = ((hint layer
          (draw_content_box convert_unit_typographic config layout layer).w
          (draw_content_box convert_unit_typographic config layout layer).h).1, layer) := by
  apply draw_of_padding_error
  have hedge := fun p => size_hints_edge_first_failure layer
    (draw_content_box convert_unit_typographic config layout layer) i
    (config.margin_elements i) p k e hint hk hh hfail hbefore
  have key : ∀ (pre post : List (Fin 4)), [0, 1, 2, 3] = pre ++ i :: post →
      (∀ i' ∈ pre, i' < i) →
      draw_padding convert_unit_typographic config layout layer
        = Except.error (hint layer
          (draw_content_box convert_unit_typographic config layout layer).w
          (draw_content_box convert_unit_typographic config layout layer).h).1 := by
    intro pre post hsplit hlt
    unfold draw_padding
    rw [hsplit]
    exact size_hints_first_failure layer _ config.margin_elements pre post i _
      (fun i' hi' => hedges i' (hlt i' hi')) hedge _
  fin_cases i
  · exact key [] [1, 2, 3] rfl (by simp)
  · exact key [0] [2, 3] rfl (by simp)
  · exact key [0, 1] [3] rfl (by decide)
  · exact key [0, 1, 2] [] rfl (by decide)

/-- Witness of C17: the example configuration with an element on the right
edge whose size hint fails; the size hint of the top edge is asked first and
returns OK. -/
theorem draw_size_hint_failure_witness :
    draw example_convert example_config_unsized example_layout example_layer
      = (ReturnCode.ERROR "no size", example_layer) :=
  draw_size_hint_failure example_convert example_config_unsized example_layout example_layer
    1 0 example_unsized (fun _ _ _ => (ReturnCode.ERROR "no size", 0, 0)) rfl rfl rfl
    (by
      intro i' hi' e' he' hint' hh'
      have h0 : i' = 0 := by
        fin_cases i' <;> first | rfl | exact absurd hi' (by decide)
      subst h0
      simp only [example_config_unsized, example_margin_elements] at he'
      simp only [Fin.isValue, zero_ne_one, if_false, List.mem_singleton] at he'
      subst he'
      simp only [example_top, Option.some.injEq] at hh'
      subst hh'
      rfl)
    (by
      intro j e' hint' hj
      exact absurd hj (Nat.not_lt_zero j))

/-- The draw of the example configuration: the fill of the body box, the
body element drawn in the body box, the top element drawn in the top band,
and the stroke of the top border. -/
theorem example_draw :
    draw example_convert example_config example_layout example_layer
      = (ReturnCode.OK,
          { dpi := 96
            ops :=
              [Op.fillRectangle { x := 0, y := 20 } 100 80 { color := example_color },
                Op.draw 0 { content_box := { x := 0, y := 20, w := 100, h := 80 } },
                Op.draw 1 { content_box := { x := 0, y := 0, w := 100, h := 20 } },
                Op.strokeLine { x := 0, y := 0 } { x := 100, y := 0 }
                  { line_width := from_unit 2, color := example_color }] }) := by
  rw [draw_of_padding_ok _ _ _ _ example_padding (example_padding_ok _ _ _ _ rfl)]
  simp [run_calls, draw_sequence, call_rc, call_op, example_config, example_margin_elements,
    example_body, example_top, ReturnCode.failed, Layer.issue, background_ops, border_ops,
    edge_corners, draw_body_box, draw_margin_boxes, draw_content_box, layout_margin_box,
    example_convert, example_layout, example_layer, example_padding, from_unit, Measure.zero]
  norm_num

/-- C11. Box-model resolution in `draw`, when no size hint fails. The padding
of the edge `i` is the maximum of 0 and the extents hinted on that edge (the
hinted height on top and bottom, the hinted width on right and left): it is
at least 0 and at least every hinted extent, and it is 0 or one of them. The
body box is the content box shrunk by the four paddings, and the band of an
edge has the padding as its thickness. With the content box
`{0, 0, 100, 100}`, all margins 0 and one top element hinting `(0, 20)`, the
body box is `{0, 20, 100, 80}` and the top band is `{0, 0, 100, 20}`, and
these are the boxes that the body element and the top element are drawn
with. -/
theorem draw_box_model (convert_unit_typographic : ℚ → Measure → Measure → Measure)
    (config : PlotConfig) (layout : LayoutInfo) (layer : Layer) (padding : Fin 4 → Measure)
    (hpad : draw_padding convert_unit_typographic config layout layer = Except.ok padding) :
    (∀ i : Fin 4,
        0 ≤ (padding i).value
        ∧ (∀ e ∈ config.margin_elements i, ∀ hint, e.size_hint = some hint →
            hinted_extent i (hint layer
              (draw_content_box convert_unit_typographic config layout layer).w
              (draw_content_box convert_unit_typographic config layout layer).h).2
              ≤ (padding i).value)
        ∧ ((padding i).value = 0
          ∨ ∃ e ∈ config.margin_elements i, ∃ hint, e.size_hint = some hint
            ∧ (padding i).value = hinted_extent i (hint layer
              (draw_content_box convert_unit_typographic config layout layer).w
              (draw_content_box convert_unit_typographic config layout layer).h).2))
      ∧ draw_body_box (draw_content_box convert_unit_typographic config layout layer) padding
        = { x := (draw_content_box convert_unit_typographic config layout layer).x
              + (padding 3).value
            y := (draw_content_box convert_unit_typographic config layout layer).y
              + (padding 0).value
            w := (draw_content_box convert_unit_typographic config layout layer).w
              - ((padding 3).value + (padding 1).value)
            h := (draw_content_box convert_unit_typographic config layout layer).h
              - ((padding 0).value + (padding 2).value) }
      ∧ (∀ content_box body_box : Rectangle,
          (draw_margin_boxes content_box body_box padding 0).h = (padding 0).value
          ∧ (draw_margin_boxes content_box body_box padding 1).w = (padding 1).value
          ∧ (draw_margin_boxes content_box body_box padding 2).h = (padding 2).value
          ∧ (draw_margin_boxes content_box body_box padding 3).w = (padding 3).value)
      ∧ (draw_content_box example_convert example_config example_layout example_layer
          = { x := 0, y := 0, w := 100, h := 100 }
        ∧ draw_padding example_convert example_config example_layout example_layer
          = Except.ok example_padding
        ∧ draw_body_box { x := 0, y := 0, w := 100, h := 100 } example_padding
          = { x := 0, y := 20, w := 100, h := 80 }
        ∧ draw_margin_boxes { x := 0, y := 0, w := 100, h := 100 }
            { x := 0, y := 20, w := 100, h := 80 } example_padding 0
          = { x := 0, y := 0, w := 100, h := 20 }
        ∧ (draw example_convert example_config example_layout example_layer).2.ops.filter
            Op.isDraw
          = [Op.draw example_body.ref
                { content_box := { x := 0, y := 20, w := 100, h := 80 } },
              Op.draw example_top.ref
                { content_box := { x := 0, y := 0, w := 100, h := 20 } }]) := by
  refine ⟨?_, ?_, ?_, ?_, ?_, ?_, ?_, ?_⟩
  · intro i
    have hall := (size_hints_ok layer _ config.margin_elements [0, 1, 2, 3] (by decide)
      (fun _ => Measure.zero) padding hpad).1 i (by fin_cases i <;> simp)
    obtain ⟨h1, h2, h3⟩ := size_hints_edge_ok layer _ i _ _ _ hall
    refine ⟨h1, fun e he hint hh => (h2 e he hint hh).2, ?_⟩
    rcases h3 with h3 | h3
    · exact Or.inl h3
    · exact Or.inr h3
  · simp [draw_body_box, layout_margin_box]
  · intro content_box body_box
    simp [draw_margin_boxes]
  · simp [draw_content_box, layout_margin_box, example_convert, example_config, example_layout,
      from_unit]
  · exact example_padding_ok _ _ _ _ rfl
  · simp [draw_body_box, layout_margin_box, example_padding, from_unit, Measure.zero]
    norm_num
  · simp [draw_margin_boxes, example_padding, from_unit]
  · rw [example_draw]
    simp [Op.isDraw, example_body, example_top]

/-- Witness of C11: the top edge of the example configuration, whose padding is
20, the height that its one element hints. -/
theorem draw_box_model_witness :
    0 ≤ (example_padding 0).value
      ∧ (∀ e ∈ example_config.margin_elements 0, ∀ hint, e.size_hint = some hint →
          hinted_extent 0 (hint example_layer
            (draw_content_box example_convert example_config example_layout example_layer).w
            (draw_content_box example_convert example_config example_layout example_layer).h).2
            ≤ (example_padding 0).value)
      ∧ ((example_padding 0).value = 0
        ∨ ∃ e ∈ example_config.margin_elements 0, ∃ hint, e.size_hint = some hint
          ∧ (example_padding 0).value = hinted_extent 0 (hint example_layer
            (draw_content_box example_convert example_config example_layout example_layer).w
            (draw_content_box example_convert example_config example_layout
              example_layer).h).2) :=
  (draw_box_model example_convert example_config example_layout example_layer example_padding
    (example_padding_ok _ _ _ _ rfl)).1 0

/-- C18. Margin bands never overlap the body box. For every content box and
all paddings, the top band ends exactly at the top edge of the body box, the
bottom band starts exactly at its bottom edge, the left band ends exactly at
its left edge and the right band starts exactly at its right edge; the top
and bottom bands have the x and width of the body box, the left and right
bands its y and height; and no point lies in the interior of a band and in
the interior of the body box. -/
theorem draw_bands_disjoint (content_box : Rectangle) (padding : Fin 4 → Measure) :
    ((draw_margin_boxes content_box (draw_body_box content_box padding) padding 0).y
          + (draw_margin_boxes content_box (draw_body_box content_box padding) padding 0).h
        = (draw_body_box content_box padding).y
      ∧ (draw_margin_boxes content_box (draw_body_box content_box padding) padding 2).y
        = (draw_body_box content_box padding).y + (draw_body_box content_box padding).h
      ∧ (draw_margin_boxes content_box (draw_body_box content_box padding) padding 3).x
          + (draw_margin_boxes content_box (draw_body_box content_box padding) padding 3).w
        = (draw_body_box content_box padding).x
      ∧ (draw_margin_boxes content_box (draw_body_box content_box padding) padding 1).x
        = (draw_body_box content_box padding).x + (draw_body_box content_box padding).w)
    ∧ ((draw_margin_boxes content_box (draw_body_box content_box padding) padding 0).x
        = (draw_body_box content_box padding).x
      ∧ (draw_margin_boxes content_box (draw_body_box content_box padding) padding 0).w
        = (draw_body_box content_box padding).w
      ∧ (draw_margin_boxes content_box (draw_body_box content_box padding) padding 2).x
        = (draw_body_box content_box padding).x
      ∧ (draw_margin_boxes content_box (draw_body_box content_box padding) padding 2).w
        = (draw_body_box content_box padding).w
      ∧ (draw_margin_boxes content_box (draw_body_box content_box padding) padding 1).y
        = (draw_body_box content_box padding).y
      ∧ (draw_margin_boxes content_box (draw_body_box content_box padding) padding 1).h
        = (draw_body_box content_box padding).h
      ∧ (draw_margin_boxes content_box (draw_body_box content_box padding) padding 3).y
        = (draw_body_box content_box padding).y
      ∧ (draw_margin_boxes content_box (draw_body_box content_box padding) padding 3).h
        = (draw_body_box content_box padding).h)
    ∧ ∀ (i : Fin 4) (px py : ℚ),
        ¬ ((draw_margin_boxes content_box (draw_body_box content_box padding) padding
              i).interior px py
          ∧ (draw_body_box content_box padding).interior px py) := by
  refine ⟨⟨?_, ?_, ?_, ?_⟩, ⟨?_, ?_, ?_, ?_, ?_, ?_, ?_, ?_⟩, ?_⟩
  · simp [draw_margin_boxes, draw_body_box, layout_margin_box]
  · simp only [draw_margin_boxes, draw_body_box, layout_margin_box]
    ring
  · simp [draw_margin_boxes, draw_body_box, layout_margin_box]
  · simp only [draw_margin_boxes, draw_body_box, layout_margin_box]
    ring
  · simp [draw_margin_boxes]
  · simp [draw_margin_boxes]
  · simp [draw_margin_boxes]
  · simp [draw_margin_boxes]
  · simp [draw_margin_boxes]
  · simp [draw_margin_boxes]
  · simp [draw_margin_boxes]
  · simp [draw_margin_boxes]
  · intro i px py
    fin_cases i
    · simp only [Rectangle.interior, draw_margin_boxes, draw_body_box, layout_margin_box]
      rintro ⟨⟨_, _, _, h1⟩, ⟨_, _, h2, _⟩⟩
      linarith
    · simp only [Rectangle.interior, draw_margin_boxes, draw_body_box, layout_margin_box]
      rintro ⟨⟨h1, _, _, _⟩, ⟨_, h2, _, _⟩⟩
      linarith
    · simp only [Rectangle.interior, draw_margin_boxes, draw_body_box, layout_margin_box]
      rintro ⟨⟨_, _, h1, _⟩, ⟨_, _, _, h2⟩⟩
      linarith
    · simp only [Rectangle.interior, draw_margin_boxes, draw_body_box, layout_margin_box]
      rintro ⟨⟨_, h1, _, _⟩, ⟨h2, _, _, _⟩⟩
      linarith

/-! ## The operations of a draw: C12 to C15 -/

/-- A draw that returns OK: no size hint has failed, and the surface has
received the background fill, then every call of the draw sequence, then the
border strokes of the four edges in turn. -/
theorem draw_ok (convert_unit_typographic : ℚ → Measure → Measure → Measure)
    (config : PlotConfig) (layout : LayoutInfo) (layer : Layer)
    (hok : (draw convert_unit_typographic config layout layer).1 = ReturnCode.OK) :
    ∃ padding,
      draw_padding convert_unit_typographic config layout layer = Except.ok padding
        ∧ (draw convert_unit_typographic config layout layer).2
          = layer.issue
              (background_ops config
                  (draw_body_box
                    (draw_content_box convert_unit_typographic config layout layer) padding)
                ++ (draw_sequence config
                    (draw_body_box
                      (draw_content_box convert_unit_typographic config layout layer) padding)
                    (draw_margin_boxes
                      (draw_content_box convert_unit_typographic config layout layer)
                      (draw_body_box
                        (draw_content_box convert_unit_typographic config layout layer)
                        padding)
                      padding)).map call_op
                ++ (border_ops config
                      (draw_content_box convert_unit_typographic config layout layer) 0
                    ++ border_ops config
                      (draw_content_box convert_unit_typographic config layout layer) 1
                    ++ border_ops config
                      (draw_content_box convert_unit_typographic config layout layer) 2
                    ++ border_ops config
                      (draw_content_box convert_unit_typographic config layout layer) 3)) := by
  cases hp : draw_padding convert_unit_typographic config layout layer with
  | error rc =>
    have hf : rc.failed = true := size_hints_error _ _ _ _ _ _ hp
    rw [draw_of_padding_error _ _ _ _ _ hp] at hok
    simp only at hok
    rw [hok] at hf
    simp [ReturnCode.failed] at hf
  | ok padding =>
    refine ⟨padding, rfl, ?_⟩
    rw [draw_of_padding_ok _ _ _ _ _ hp] at hok ⊢
    split_ifs at hok ⊢ with hf
    · rw [hok] at hf
      simp [ReturnCode.failed] at hf
    · have hf' := run_calls_ok _ _ (by simpa using hf)
      simp only [hf', issue_issue, List.append_assoc]

/-- The calls of child elements are neither fills nor strokes. -/
theorem call_op_kind (cs : List (Element × Rectangle)) :
    ∀ op ∈ cs.map call_op, op.isDraw = true ∧ op.isFill = false ∧ op.isStroke = false := by
  intro op hop
  obtain ⟨c, _, rfl⟩ := List.mem_map.mp hop
  simp [call_op, Op.isDraw, Op.isFill, Op.isStroke]

/-- The border strokes are strokes. -/
theorem border_ops_kind (config : PlotConfig) (box : Rectangle) (i : Fin 4) :
    ∀ op ∈ border_ops config box i,
      op.isStroke = true ∧ op.isFill = false ∧ op.isDraw = false := by
  intro op hop
  unfold border_ops at hop
  split_ifs at hop
  · rw [List.mem_singleton] at hop
    subst hop
    simp [Op.isDraw, Op.isFill, Op.isStroke]
  · simp at hop

/-- The background fill is a fill. -/
theorem background_ops_kind (config : PlotConfig) (box : Rectangle) :
    ∀ op ∈ background_ops config box,
      op.isFill = true ∧ op.isStroke = false ∧ op.isDraw = false := by
  intro op hop
  unfold background_ops at hop
  cases hb : config.background with
  | none => simp [hb] at hop
  | some color =>
    simp only [hb, List.mem_singleton] at hop
    subst hop
    simp [Op.isDraw, Op.isFill, Op.isStroke]

/-- C12. When the draw of a body or margin element fails, `draw` returns
exactly the return code of that element and does nothing after it. The
failing call is call number `k` of the draw sequence (the body elements, then
the margin elements edge by edge) and every call before it returns OK; then
the surface has received the background fill and the calls number 0 to `k`,
and nothing else: no later element is drawn and no border is stroked. -/
theorem draw_child_failure (convert_unit_typographic : ℚ → Measure → Measure → Measure)
    (config : PlotConfig) (layout : LayoutInfo) (layer : Layer) (padding : Fin 4 → Measure)
    (body_box : Rectangle) (margin_boxes : Fin 4 → Rectangle)
    (k : Nat) (c : Element × Rectangle)
    (hpad : draw_padding convert_unit_typographic config layout layer = Except.ok padding)
    (hbody : body_box
      = draw_body_box (draw_content_box convert_unit_typographic config layout layer) padding)
    (hboxes : margin_boxes
      = draw_margin_boxes (draw_content_box convert_unit_typographic config layout layer)
          body_box padding)
    (hk : (draw_sequence config body_box margin_boxes)[k]? = some c)
    (hbefore : ∀ (j : Nat) (c' : Element × Rectangle), j < k →
      (draw_sequence config body_box margin_boxes)[j]? = some c' →
      (call_rc c' (layer.issue (background_ops config body_box
        ++ ((draw_sequence config body_box margin_boxes).take j).map call_op))).failed = false)
    (hfail : (call_rc c (layer.issue (background_ops config body_box
        ++ ((draw_sequence config body_box margin_boxes).take k).map call_op))).failed = true) :
    draw convert_unit_typographic config layout layer
      = (call_rc c (layer.issue (background_ops config body_box
            ++ ((draw_sequence config body_box margin_boxes).take k).map call_op)),
          layer.issue (background_ops config body_box
            ++ ((draw_sequence config body_box margin_boxes).take (k + 1)).map call_op)) := by
  subst hboxes
  subst hbody
  have hrun := run_calls_first_failure
    (draw_sequence config
      (draw_body_box (draw_content_box convert_unit_typographic config layout layer) padding)
      (draw_margin_boxes (draw_content_box convert_unit_typographic config layout layer)
        (draw_body_box (draw_content_box convert_unit_typographic config layout layer) padding)
        padding))
    (layer.issue (background_ops config
      (draw_body_box (draw_content_box convert_unit_typographic config layout layer) padding)))
    k c hk
    (by
      intro j c' hj hc'
      have := hbefore j c' hj hc'
      simpa [issue_issue] using this)
    (by simpa [issue_issue] using hfail)
  rw [draw_of_padding_ok _ _ _ _ _ hpad, hrun]
  simp only [issue_issue]
  rw [if_pos hfail]

/-- Witness of C12: the example configuration with a failing element between
two body elements. The draw returns the error of the failing element; the
surface has the background fill and the draws of the first body element and
of the failing element, and nothing after them. -/
theorem draw_child_failure_witness :
    draw example_convert example_config_failing example_layout example_layer
      = (ReturnCode.ERROR "draw failed",
          { dpi := 96
            ops :=
              [Op.fillRectangle { x := 0, y := 20 } 100 80 { color := example_color },
                Op.draw 0 { content_box := { x := 0, y := 20, w := 100, h := 80 } },
                Op.draw 2 { content_box := { x := 0, y := 20, w := 100, h := 80 } }] }) := by
  have h := draw_child_failure example_convert example_config_failing example_layout
    example_layer example_padding
    (draw_body_box
      (draw_content_box example_convert example_config_failing example_layout example_layer)
      example_padding)
    (draw_margin_boxes
      (draw_content_box example_convert example_config_failing example_layout example_layer)
      (draw_body_box
        (draw_content_box example_convert example_config_failing example_layout example_layer)
        example_padding)
      example_padding)
    1
    (example_failing,
      draw_body_box
        (draw_content_box example_convert example_config_failing example_layout example_layer)
        example_padding)
    (example_padding_ok _ _ _ _ rfl) rfl rfl rfl
    (by
      intro j c' hj hc'
      have hj0 : j = 0 := by omega
      subst hj0
      simp only [draw_sequence, example_config_failing, example_config, List.map_cons,
        List.cons_append, List.getElem?_cons_zero, Option.some.injEq] at hc'
      subst hc'
      rfl)
    rfl
  rw [h]
  simp [call_rc, call_op, draw_sequence, example_config_failing, example_config,
    example_margin_elements, example_body, example_failing, Layer.issue, background_ops,
    draw_body_box, draw_content_box, layout_margin_box, example_convert, example_layout,
    example_layer, example_padding, from_unit, Measure.zero]
  norm_num

/-- C15. Draw order. In a draw that returns OK the surface receives, after
the background fill, every body element in list order, each drawn with the
body box; then the margin elements edge by edge in the order top, right,
bottom, left and in list order within an edge, each drawn with the band of
its edge; then the border strokes in the order top, right, bottom, left. The
strokes come after every element draw. -/
theorem draw_order (convert_unit_typographic : ℚ → Measure → Measure → Measure)
    (config : PlotConfig) (layout : LayoutInfo) (layer : Layer)
    (hok : (draw convert_unit_typographic config layout layer).1 = ReturnCode.OK) :
    ∃ (padding : Fin 4 → Measure) (body_box : Rectangle) (margin_boxes : Fin 4 → Rectangle),
      draw_padding convert_unit_typographic config layout layer = Except.ok padding
        ∧ body_box = draw_body_box
            (draw_content_box convert_unit_typographic config layout layer) padding
        ∧ margin_boxes = draw_margin_boxes
            (draw_content_box convert_unit_typographic config layout layer) body_box padding
        ∧ (draw convert_unit_typographic config layout layer).2.ops
          = layer.ops
            ++ background_ops config body_box
            ++ config.body_elements.map (fun e => Op.draw e.ref { content_box := body_box })
            ++ (config.margin_elements 0).map
                (fun e => Op.draw e.ref { content_box := margin_boxes 0 })
            ++ (config.margin_elements 1).map
                (fun e => Op.draw e.ref { content_box := margin_boxes 1 })
            ++ (config.margin_elements 2).map
                (fun e => Op.draw e.ref { content_box := margin_boxes 2 })
            ++ (config.margin_elements 3).map
                (fun e => Op.draw e.ref { content_box := margin_boxes 3 })
            ++ border_ops config
                (draw_content_box convert_unit_typographic config layout layer) 0
            ++ border_ops config
                (draw_content_box convert_unit_typographic config layout layer) 1
            ++ border_ops config
                (draw_content_box convert_unit_typographic config layout layer) 2
            ++ border_ops config
                (draw_content_box convert_unit_typographic config layout layer) 3
        ∧ (∀ i, ∀ op ∈ border_ops config
              (draw_content_box convert_unit_typographic config layout layer) i,
            op.isStroke = true ∧ op.isDraw = false) := by
  obtain ⟨padding, hpad, hops⟩ := draw_ok convert_unit_typographic config layout layer hok
  refine ⟨padding, _, _, hpad, rfl, rfl, ?_, ?_⟩
  · rw [hops]
    simp [Layer.issue, draw_sequence, call_op, List.map_append, Function.comp_def]
  · intro i op hop
    exact ⟨(border_ops_kind _ _ _ op hop).1, (border_ops_kind _ _ _ op hop).2.2⟩

/-- Witness of C15: the example configuration, whose draw returns OK. -/
theorem draw_order_witness :
    ∃ (padding : Fin 4 → Measure) (body_box : Rectangle) (margin_boxes : Fin 4 → Rectangle),
      draw_padding example_convert example_config example_layout example_layer
          = Except.ok padding
        ∧ body_box = draw_body_box
            (draw_content_box example_convert example_config example_layout example_layer)
            padding
        ∧ margin_boxes = draw_margin_boxes
            (draw_content_box example_convert example_config example_layout example_layer)
            body_box padding
        ∧ (draw example_convert example_config example_layout example_layer).2.ops
          = example_layer.ops
            ++ background_ops example_config body_box
            ++ example_config.body_elements.map
                (fun e => Op.draw e.ref { content_box := body_box })
            ++ (example_config.margin_elements 0).map
                (fun e => Op.draw e.ref { content_box := margin_boxes 0 })
            ++ (example_config.margin_elements 1).map
                (fun e => Op.draw e.ref { content_box := margin_boxes 1 })
            ++ (example_config.margin_elements 2).map
                (fun e => Op.draw e.ref { content_box := margin_boxes 2 })
            ++ (example_config.margin_elements 3).map
                (fun e => Op.draw e.ref { content_box := margin_boxes 3 })
            ++ border_ops example_config
                (draw_content_box example_convert example_config example_layout
                  example_layer) 0
            ++ border_ops example_config
                (draw_content_box example_convert example_config example_layout
                  example_layer) 1
            ++ border_ops example_config
                (draw_content_box example_convert example_config example_layout
                  example_layer) 2
            ++ border_ops example_config
                (draw_content_box example_convert example_config example_layout
                  example_layer) 3
        ∧ (∀ i, ∀ op ∈ border_ops example_config
              (draw_content_box example_convert example_config example_layout
                example_layer) i,
            op.isStroke = true ∧ op.isDraw = false) :=
  draw_order example_convert example_config example_layout example_layer
    (by rw [example_draw])

/-- C13. In a draw that returns OK, the operations issued end with the
border strokes of the four edges in turn, and no stroke is issued before
them. An edge whose border width is 0 gets no stroke; an edge whose border
width is greater than 0 gets exactly one stroke, between the two corners of
the margin-shrunk content box `{x, y, w, h}` on that edge (top
`(x, y)-(x+w, y)`, right `(x+w, y)-(x+w, y+h)`, bottom `(x, y+h)-(x+w, y+h)`,
left `(x, y)-(x, y+h)`), in the configured width and colour. -/
theorem draw_border_strokes (convert_unit_typographic : ℚ → Measure → Measure → Measure)
    (config : PlotConfig) (layout : LayoutInfo) (layer : Layer) (content_box : Rectangle)
    (hbox : content_box = draw_content_box convert_unit_typographic config layout layer)
    (hok : (draw convert_unit_typographic config layout layer).1 = ReturnCode.OK) :
    ∃ (before top right bottom left : List Op),
      (draw convert_unit_typographic config layout layer).2.ops
          = layer.ops ++ before ++ top ++ right ++ bottom ++ left
        ∧ (∀ op ∈ before, op.isStroke = false)
        ∧ ((config.borders 0).width.value = 0 → top = [])
        ∧ ((config.borders 0).width.value > 0 →
            top = [Op.strokeLine { x := content_box.x, y := content_box.y }
              { x := content_box.x + content_box.w, y := content_box.y }
              { line_width := (config.borders 0).width, color := (config.borders 0).color }])
        ∧ ((config.borders 1).width.value = 0 → right = [])
        ∧ ((config.borders 1).width.value > 0 →
            right = [Op.strokeLine { x := content_box.x + content_box.w, y := content_box.y }
              { x := content_box.x + content_box.w, y := content_box.y + content_box.h }
              { line_width := (config.borders 1).width, color := (config.borders 1).color }])
        ∧ ((config.borders 2).width.value = 0 → bottom = [])
        ∧ ((config.borders 2).width.value > 0 →
            bottom = [Op.strokeLine { x := content_box.x, y := content_box.y + content_box.h }
              { x := content_box.x + content_box.w, y := content_box.y + content_box.h }
              { line_width := (config.borders 2).width, color := (config.borders 2).color }])
        ∧ ((config.borders 3).width.value = 0 → left = [])
        ∧ ((config.borders 3).width.value > 0 →
            left = [Op.strokeLine { x := content_box.x, y := content_box.y }
              { x := content_box.x, y := content_box.y + content_box.h }
              { line_width := (config.borders 3).width, color := (config.borders 3).color }]) := by
  subst hbox
  obtain ⟨padding, _, hops⟩ := draw_ok convert_unit_typographic config layout layer hok
  refine ⟨background_ops config
        (draw_body_box (draw_content_box convert_unit_typographic config layout layer) padding)
      ++ (draw_sequence config
          (draw_body_box (draw_content_box convert_unit_typographic config layout layer)
            padding)
          (draw_margin_boxes (draw_content_box convert_unit_typographic config layout layer)
            (draw_body_box (draw_content_box convert_unit_typographic config layout layer)
              padding)
            padding)).map call_op,
    border_ops config (draw_content_box convert_unit_typographic config layout layer) 0,
    border_ops config (draw_content_box convert_unit_typographic config layout layer) 1,
    border_ops config (draw_content_box convert_unit_typographic config layout layer) 2,
    border_ops config (draw_content_box convert_unit_typographic config layout layer) 3,
    ?_, ?_, ?_, ?_, ?_, ?_, ?_, ?_, ?_, ?_⟩
  · rw [hops]
    simp only [Layer.issue, List.append_assoc]
  · intro op hop
    rcases List.mem_append.mp hop with h | h
    · exact (background_ops_kind _ _ op h).2.1
    · exact (call_op_kind _ op h).2.2
  · intro h
    simp [border_ops, h]
  · intro h
    simp [border_ops, h, edge_corners]
  · intro h
    simp [border_ops, h]
  · intro h
    simp [border_ops, h, edge_corners]
  · intro h
    simp [border_ops, h]
  · intro h
    simp [border_ops, h, edge_corners]
  · intro h
    simp [border_ops, h]
  · intro h
    simp [border_ops, h, edge_corners]

/-- Witness of C13: the example configuration, whose draw returns OK; its top
border has the width 2 and its other borders the width 0. -/
theorem draw_border_strokes_witness :
    ∃ (before top right bottom left : List Op),
      (draw example_convert example_config example_layout example_layer).2.ops
          = example_layer.ops ++ before ++ top ++ right ++ bottom ++ left
        ∧ (∀ op ∈ before, op.isStroke = false)
        ∧ ((example_config.borders 0).width.value = 0 → top = [])
        ∧ ((example_config.borders 0).width.value > 0 →
            top = [Op.strokeLine { x := (0 : ℚ), y := (0 : ℚ) }
              { x := (0 : ℚ) + 100, y := (0 : ℚ) }
              { line_width := (example_config.borders 0).width,
                color := (example_config.borders 0).color }])
        ∧ ((example_config.borders 1).width.value = 0 → right = [])
        ∧ ((example_config.borders 1).width.value > 0 →
            right = [Op.strokeLine { x := (0 : ℚ) + 100, y := (0 : ℚ) }
              { x := (0 : ℚ) + 100, y := (0 : ℚ) + 100 }
              { line_width := (example_config.borders 1).width,
                color := (example_config.borders 1).color }])
        ∧ ((example_config.borders 2).width.value = 0 → bottom = [])
        ∧ ((example_config.borders 2).width.value > 0 →
            bottom = [Op.strokeLine { x := (0 : ℚ), y := (0 : ℚ) + 100 }
              { x := (0 : ℚ) + 100, y := (0 : ℚ) + 100 }
              { line_width := (example_config.borders 2).width,
                color := (example_config.borders 2).color }])
        ∧ ((example_config.borders 3).width.value = 0 → left = [])
        ∧ ((example_config.borders 3).width.value > 0 →
            left = [Op.strokeLine { x := (0 : ℚ), y := (0 : ℚ) }
              { x := (0 : ℚ), y := (0 : ℚ) + 100 }
              { line_width := (example_config.borders 3).width,
                color := (example_config.borders 3).color }]) :=
  draw_border_strokes example_convert example_config example_layout example_layer
    { x := 0, y := 0, w := 100, h := 100 }
    (by
      simp [draw_content_box, layout_margin_box, example_convert, example_config,
        example_layout, from_unit])
    (by rw [example_draw])

/-- C14. When no size hint fails, `draw` issues the background first and no
fill after it. With a background colour set, that is exactly one rectangle
fill, whose origin, width and height are those of the body box, and it comes
before the draw of any child element; with no background set, no fill is
issued. -/
theorem draw_background_fill (convert_unit_typographic : ℚ → Measure → Measure → Measure)
    (config : PlotConfig) (layout : LayoutInfo) (layer : Layer) (padding : Fin 4 → Measure)
    (body_box : Rectangle)
    (hpad : draw_padding convert_unit_typographic config layout layer = Except.ok padding)
    (hbody : body_box
      = draw_body_box (draw_content_box convert_unit_typographic config layout layer) padding) :
    ∃ (fills rest : List Op),
      (draw convert_unit_typographic config layout layer).2.ops = layer.ops ++ fills ++ rest
        ∧ (∀ op ∈ rest, op.isFill = false)
        ∧ (∀ color, config.background = some color →
            fills = [Op.fillRectangle { x := body_box.x, y := body_box.y }
              body_box.w body_box.h { color := color }])
        ∧ (config.background = none → fills = []) := by
  subst hbody
  obtain ⟨k, _, hk⟩ := run_calls_prefix
    (draw_sequence config
      (draw_body_box (draw_content_box convert_unit_typographic config layout layer) padding)
      (draw_margin_boxes (draw_content_box convert_unit_typographic config layout layer)
        (draw_body_box (draw_content_box convert_unit_typographic config layout layer) padding)
        padding))
    (layer.issue (background_ops config
      (draw_body_box (draw_content_box convert_unit_typographic config layout layer) padding)))
  have hfill : (∀ color, config.background = some color →
      background_ops config
          (draw_body_box (draw_content_box convert_unit_typographic config layout layer)
            padding)
        = [Op.fillRectangle
            { x := (draw_body_box
                (draw_content_box convert_unit_typographic config layout layer) padding).x
              y := (draw_body_box
                (draw_content_box convert_unit_typographic config layout layer) padding).y }
            (draw_body_box
              (draw_content_box convert_unit_typographic config layout layer) padding).w
            (draw_body_box
              (draw_content_box convert_unit_typographic config layout layer) padding).h
            { color := color }])
      ∧ (config.background = none →
        background_ops config
          (draw_body_box (draw_content_box convert_unit_typographic config layout layer)
            padding) = []) := by
    constructor
    · intro color hc
      simp [background_ops, hc]
    · intro hc
      simp [background_ops, hc]
  rw [draw_of_padding_ok _ _ _ _ _ hpad]
  split_ifs
  · refine ⟨background_ops config
        (draw_body_box (draw_content_box convert_unit_typographic config layout layer) padding),
      (List.take k
        (draw_sequence config
          (draw_body_box (draw_content_box convert_unit_typographic config layout layer)
            padding)
          (draw_margin_boxes (draw_content_box convert_unit_typographic config layout layer)
            (draw_body_box (draw_content_box convert_unit_typographic config layout layer)
              padding)
            padding))).map
        call_op,
      ?_, ?_, hfill.1, hfill.2⟩
    · rw [hk]
      simp only [Layer.issue, List.append_assoc]
    · intro op hop
      exact (call_op_kind _ op hop).2.1
  · refine ⟨background_ops config
        (draw_body_box (draw_content_box convert_unit_typographic config layout layer) padding),
      (List.take k
        (draw_sequence config
          (draw_body_box (draw_content_box convert_unit_typographic config layout layer)
            padding)
          (draw_margin_boxes (draw_content_box convert_unit_typographic config layout layer)
            (draw_body_box (draw_content_box convert_unit_typographic config layout layer)
              padding)
            padding))).map
        call_op
        ++ (border_ops config (draw_content_box convert_unit_typographic config layout layer) 0
          ++ border_ops config (draw_content_box convert_unit_typographic config layout layer) 1
          ++ border_ops config (draw_content_box convert_unit_typographic config layout layer) 2
          ++ border_ops config (draw_content_box convert_unit_typographic config layout layer) 3),
      ?_, ?_, hfill.1, hfill.2⟩
    · dsimp only
      rw [hk]
      simp only [Layer.issue, List.append_assoc]
    · intro op hop
      simp only [List.mem_append] at hop
      rcases hop with h | (((h | h) | h) | h)
      · exact (call_op_kind _ op h).2.1
      · exact (border_ops_kind _ _ _ op h).2.1
      · exact (border_ops_kind _ _ _ op h).2.1
      · exact (border_ops_kind _ _ _ op h).2.1
      · exact (border_ops_kind _ _ _ op h).2.1

/-- Witness of C14: the example configuration, which has a background and the
body box `{0, 20, 100, 80}`. -/
theorem draw_background_fill_witness :
    ∃ (fills rest : List Op),
      (draw example_convert example_config example_layout example_layer).2.ops
          = example_layer.ops ++ fills ++ rest
        ∧ (∀ op ∈ rest, op.isFill = false)
        ∧ (∀ color, example_config.background = some color →
            fills = [Op.fillRectangle { x := (0 : ℚ), y := (20 : ℚ) } 100 80
              { color := color }])
        ∧ (example_config.background = none → fills = []) :=
  draw_background_fill example_convert example_config example_layout example_layer
    example_padding { x := 0, y := 20, w := 100, h := 80 }
    (example_padding_ok _ _ _ _ rfl)
    (by
      simp [draw_body_box, draw_content_box, layout_margin_box, example_convert, example_config,
        example_layout, example_padding, from_unit, Measure.zero]
      norm_num)

end fviz
